import Mathlib

/-!
Verification of the metrics-toolbox evaluation core.

This file gives a shallow embedding of the core of the `metrics_toolbox`
Python package (evaluator, metric specs, metric variants, reducers) and
proves properties of it.

Modelling conventions:
* NumPy arrays are modelled by `NDArray`: an explicit dtype, an explicit
  shape (so non-2-D inputs are representable), and the 2-D payload as a
  list of rows of `PyVal` cells.
* Python exceptions are modelled by the `PyErr` type; functions that can
  raise return `Except PyErr _` and methods that mutate state return the
  new state together with an `Option PyErr`.
* Python float arithmetic is modelled exactly: intermediate statistics are
  rationals and metric values live in `ℝ` (needed for `np.sqrt` in the
  RMSE variants).  Where NumPy produces NaN without raising
  (`np.mean([])`, `0/0` on arrays) the model returns the junk value `0`;
  no theorem below depends on those values.
* `MetricResult.metadata` / `options` (plot payloads: fpr/tpr curves,
  confusion matrices, down-sampled series) are not modelled; only the
  control flow they contribute (e.g. the `normalize` validity check of
  `sklearn.confusion_matrix`) is kept, since no verified property reads
  the metadata.
-/

/-- A scalar cell of a NumPy array: integer, string or float element. -/
inductive PyVal where
  | vInt (n : Int)
  | vStr (t : String)
  | vFloat (q : ℚ)
  deriving DecidableEq

/-- The dtype of an array, as far as the toolbox's `np.issubdtype` checks
distinguish them (`tOther` covers bool/object/... dtypes). -/
inductive DType where
  | tInt
  | tStr
  | tFloat
  | tOther
  deriving DecidableEq

/-- A NumPy array as consumed by the evaluator: dtype, shape, and (for the
2-D case actually used by the metrics) the rows.  A non-2-D input is
represented by a shape list whose length differs from 2. -/
structure NDArray where
  dtype : DType
  shape : List Nat
  rows : List (List PyVal)
  deriving DecidableEq

/-- Python exceptions raised by the modelled code. -/
inductive PyErr where
  | valueError (msg : String)
  | zeroDivisionError
  | indexError
  | typeError (msg : String)
  deriving DecidableEq

/-- `ndarray.ndim`. -/
def NDArray.ndim (a : NDArray) : Nat := a.shape.length

/-- `ndarray.shape[1]` (0 when absent; only read after the 2-D check). -/
def NDArray.ncols (a : NDArray) : Nat := a.shape.getD 1 0

/-- `ndarray.ravel()`: all cells of the 2-D payload, row-major. -/
def NDArray.entries (a : NDArray) : List PyVal := a.rows.flatten

/-- The 2-D payload of `a` is well formed with `m` rows and `k` columns. -/
def NDArray.Wf2D (a : NDArray) (m k : Nat) : Prop :=
  a.shape = [m, k] ∧ a.rows.length = m ∧ ∀ r ∈ a.rows, r.length = k

/-- `MetricNameEnum` of `metrics/enums.py`.  The `MSE`/`RMSE` members are
referenced by every regression metric module but are absent from the
snapshot of `enums.py`; they are modelled from the spec ("MetricName ...
e.g., accuracy, precision, recall, f1_score, roc_auc, mse, rmse"). -/
inductive MetricNameEnum where
  | ROC_AUC
  | PRECISION
  | ACCURACY
  | RECALL
  | F1_SCORE
  | MSE
  | RMSE
  deriving DecidableEq

/-- The `.value` string of a `MetricNameEnum` member. -/
def MetricNameEnum.value : MetricNameEnum → String
  | .ROC_AUC => "roc_auc"
  | .PRECISION => "precision"
  | .ACCURACY => "accuracy"
  | .RECALL => "recall"
  | .F1_SCORE => "f1_score"
  | .MSE => "mse"
  | .RMSE => "rmse"

/-- `MetricScopeEnum` of `metrics/enums.py`. -/
inductive MetricScopeEnum where
  | MICRO
  | MACRO
  | TARGET
  deriving DecidableEq

/-- The `.value` string of a `MetricScopeEnum` member. -/
def MetricScopeEnum.value : MetricScopeEnum → String
  | .MICRO => "micro"
  | .MACRO => "macro"
  | .TARGET => "target"

/-- `MetricTypeEnum`, the metric-kind taxonomy.  `PROBS` and `LABELS` are
the members present in the snapshot of `metrics/enums.py`.  Modelled from
the spec: the `SCORES` member ("MetricKind (enumerated: labels,
probabilities, scores)"), which `evaluator.py` and all four regression
metric modules reference as `MetricTypeEnum.SCORES` but which is missing
from the snapshot of `enums.py`. -/
inductive MetricTypeEnum where
  | PROBS
  | LABELS
  | SCORES
  deriving DecidableEq

/-- `MetricReducerEnum` of `reducers/enums.py`. -/
inductive MetricReducerEnum where
  | LATEST
  | MEAN
  | STD
  | MAX
  | MIN
  | MINMAX
  deriving DecidableEq

/-- `reducer_enum.name.lower()`, used to key reduced values. -/
def MetricReducerEnum.lowerName : MetricReducerEnum → String
  | .LATEST => "latest"
  | .MEAN => "mean"
  | .STD => "std"
  | .MAX => "max"
  | .MIN => "min"
  | .MINMAX => "minmax"

/-- NumPy elementwise `x == 1` on a cell (string cells compare unequal to
an integer). -/
def valEqOne : PyVal → Bool
  | .vInt n => n == 1
  | .vFloat q => q == 1
  | .vStr _ => false

/-- NumPy elementwise `x == 0` on a cell. -/
def valEqZero : PyVal → Bool
  | .vInt n => n == 0
  | .vFloat q => q == 0
  | .vStr _ => false

/-- Numeric value of a cell (junk `0` for strings, which the dtype checks
of the callers exclude). -/
def PyVal.toQ : PyVal → ℚ
  | .vInt n => (n : ℚ)
  | .vFloat q => q
  | .vStr _ => 0

/-- NumPy `<` on two cells of a common dtype (used by `argmax`). -/
def valLt : PyVal → PyVal → Bool
  | .vInt a, .vInt b => a < b
  | .vStr a, .vStr b => a < b
  | .vFloat a, .vFloat b => a < b
  | _, _ => false

/-- Column `i` of the 2-D payload, i.e. `a[:, i]` (junk cell on an
out-of-range index, which the guarded callers exclude). -/
def NDArray.colVals (a : NDArray) (i : Nat) : List PyVal :=
  a.rows.map (fun r => r.getD i (.vInt 0))

/-- `sum(p(pred) & q(true))` over the zip of a prediction stream and a
truth stream, the pooled counting pattern of the label metrics. -/
def countPair (p q : PyVal → Bool) (preds trues : List PyVal) : Nat :=
  ((preds.zip trues).filter (fun vw => p vw.1 && q vw.2)).length

/-- Pooled/per-column `tp/(tp+fp) if (tp+fp) > 0 else 0.0` pattern shared
by the precision variants. -/
def precisionOf (preds trues : List PyVal) : ℚ :=
  let tp := countPair valEqOne valEqOne preds trues
  let fp := countPair valEqOne valEqZero preds trues
  if tp + fp > 0 then (tp : ℚ) / ((tp : ℚ) + (fp : ℚ)) else 0

/-- Pooled/per-column `tp/(tp+fn) if (tp+fn) > 0 else 0.0` pattern shared
by the recall variants. -/
def recallOf (preds trues : List PyVal) : ℚ :=
  let tp := countPair valEqOne valEqOne preds trues
  let fn := countPair valEqZero valEqOne preds trues
  if tp + fn > 0 then (tp : ℚ) / ((tp : ℚ) + (fn : ℚ)) else 0

/-- Pooled/per-column `2*tp/(2*tp+fn+fp) if ... else 0.0` pattern shared
by the F1 variants. -/
def f1Of (preds trues : List PyVal) : ℚ :=
  let tp := countPair valEqOne valEqOne preds trues
  let fn := countPair valEqZero valEqOne preds trues
  let fp := countPair valEqOne valEqZero preds trues
  if 2 * tp + fn + fp > 0 then
    (2 * tp : ℚ) / ((2 * tp : ℚ) + (fn : ℚ) + (fp : ℚ))
  else 0

/-- Tail of `np.argmax` over one row: best index/value so far, remaining
cells (NumPy keeps the first occurrence of the maximum). -/
def argmaxGo (bi : Nat) (bv : PyVal) (i : Nat) : List PyVal → Nat
  | [] => bi
  | v :: vs => if valLt bv v then argmaxGo i v (i + 1) vs else argmaxGo bi bv (i + 1) vs

/-- `np.argmax` over one row; `none` on an empty row (NumPy raises
"attempt to get argmax of an empty sequence"). -/
def argmaxIdx : List PyVal → Option Nat
  | [] => none
  | v :: vs => some (argmaxGo 0 v 1 vs)

/-- Sorted-unique insertion of a cell (ascending), the building block of
`np.unique`. -/
def insertSortedUnique (v : PyVal) : List PyVal → List PyVal
  | [] => [v]
  | w :: ws =>
    if valLt v w then v :: w :: ws
    else if v = w then w :: ws
    else w :: insertSortedUnique v ws

/-- `np.unique`: the sorted distinct cells of a stream. -/
def classesOf (l : List PyVal) : List PyVal := l.foldr insertSortedUnique []

/-- The class sets `sklearn.metrics.roc_curve` accepts when `pos_label`
is left at its default: `{0,1}`, `{-1,1}`, `{0}`, `{-1}` or `{1}`;
anything else raises a ValueError. -/
def rocClassesAccepted (u : List PyVal) : Bool :=
  decide (u = [.vInt 0]) || decide (u = [.vInt 1]) || decide (u = [.vInt (-1)]) ||
    decide (u = [.vInt 0, .vInt 1]) || decide (u = [.vInt (-1), .vInt 1])

/-- Sorted-unique insertion of a score (descending), for the threshold
sweep of `roc_curve`. -/
def insertDescUnique (v : ℚ) : List ℚ → List ℚ
  | [] => [v]
  | w :: ws =>
    if w < v then v :: w :: ws
    else if v = w then w :: ws
    else w :: insertDescUnique v ws

/-- The distinct score thresholds, highest first. -/
def thresholdsOf (ss : List ℚ) : List ℚ := ss.foldr insertDescUnique []

/-- True positives at a threshold: pairs with score `≥ th` and a positive
(`== 1`) truth cell. -/
def tpsAt (pairs : List (ℚ × PyVal)) (th : ℚ) : Nat :=
  (pairs.filter (fun p => decide (th ≤ p.1) && valEqOne p.2)).length

/-- False positives at a threshold: pairs with score `≥ th` and a
non-positive truth cell. -/
def fpsAt (pairs : List (ℚ × PyVal)) (th : ℚ) : Nat :=
  (pairs.filter (fun p => decide (th ≤ p.1) && ! valEqOne p.2)).length

/-- The `(fpr, tpr)` points of `roc_curve` (origin prepended, one point
per distinct threshold; `0/0` is the junk value `0` where NumPy emits NaN
with a warning).  `drop_intermediate` is not modelled: it removes only
collinear points and no verified property reads the curve. -/
def rocCurvePoints (ts : List PyVal) (ss : List ℚ) : List (ℚ × ℚ) :=
  let pairs := ss.zip ts
  let posN : ℚ := ((ts.filter valEqOne).length : ℚ)
  let negN : ℚ := ((ts.filter (fun v => ! valEqOne v)).length : ℚ)
  let raw : List (Nat × Nat) := (thresholdsOf ss).map (fun th => (fpsAt pairs th, tpsAt pairs th))
  ((0, 0) :: raw).map (fun p => ((p.1 : ℚ) / negN, (p.2 : ℚ) / posN))

/-- Trapezoid-rule area under a polyline, `sklearn.metrics.auc`. -/
def trapezoidArea : List (ℚ × ℚ) → ℚ
  | [] => 0
  | [_] => 0
  | p :: q :: rest => (q.1 - p.1) * (p.2 + q.2) / 2 + trapezoidArea (q :: rest)

/-- `auc(*roc_curve(ts, ss)[:2])` for one truth/score stream. -/
def aucOf (ts : List PyVal) (ss : List ℚ) : ℚ := trapezoidArea (rocCurvePoints ts ss)

/-- One binary ROC AUC computation, including the class-set check that
`roc_curve` performs before computing the curve. -/
def rocColAuc (ts : List PyVal) (ss : List ℚ) : Except PyErr ℚ :=
  if rocClassesAccepted (classesOf ts) then .ok (aucOf ts ss)
  else .error (.valueError "y_true takes unsupported values and pos_label is not specified")

/-- The per-class AUC loop of `RocAucMacro.compute`: iterate the columns
in order, propagating the first `roc_curve` failure. -/
def macroAucsList (yT yP : NDArray) : List Nat → Except PyErr (List ℚ)
  | [] => .ok []
  | i :: is =>
    match rocColAuc (yT.colVals i) ((yP.colVals i).map PyVal.toQ) with
    | .error e => .error e
    | .ok a =>
      match macroAucsList yT yP is with
      | .error e => .error e
      | .ok rest => .ok (a :: rest)

/-- The closed set of Metric classes reachable from `MetricEnum` in
`metrics/registry.py`, each with its constructor configuration.
`recallTarget` is modelled from the spec (the registry imports
`classification/recall_target.py`, which is missing from the snapshot;
per the spec, target scope is "the same formula restricted to the single
column at `column_names.index(target_name)`", mirroring
`PrecisionTarget`/`F1ScoreTarget`). -/
inductive Metric where
  | accuracy (optConfusionNormalization : Option String)
  | precisionMicro
  | precisionMacro
  | precisionTarget (targetName : String)
  | recallMicro
  | recallMacro
  | recallTarget (targetName : String)
  | f1ScoreMicro
  | f1ScoreMacro
  | f1ScoreTarget (targetName : String)
  | rocAucMicro
  | rocAucMacro
  | rocAucTarget (targetName : String)
  | mseTarget (targetName : String) (metadataSeriesLength : Nat)
  | mseMacro
  | rmseTarget (targetName : String) (metadataSeriesLength : Nat)
  | rmseMacro
  deriving DecidableEq

/-- The `_name` class attribute of each Metric class. -/
def Metric.name : Metric → MetricNameEnum
  | .accuracy _ => .ACCURACY
  | .precisionMicro | .precisionMacro | .precisionTarget _ => .PRECISION
  | .recallMicro | .recallMacro | .recallTarget _ => .RECALL
  | .f1ScoreMicro | .f1ScoreMacro | .f1ScoreTarget _ => .F1_SCORE
  | .rocAucMicro | .rocAucMacro | .rocAucTarget _ => .ROC_AUC
  | .mseTarget _ _ | .mseMacro => .MSE
  | .rmseTarget _ _ | .rmseMacro => .RMSE

/-- The `_scope` class attribute of each Metric class. -/
def Metric.scope : Metric → MetricScopeEnum
  | .accuracy _ => .MICRO
  | .precisionMicro | .recallMicro | .f1ScoreMicro | .rocAucMicro => .MICRO
  | .precisionMacro | .recallMacro | .f1ScoreMacro | .rocAucMacro => .MACRO
  | .mseMacro | .rmseMacro => .MACRO
  | .precisionTarget _ | .recallTarget _ | .f1ScoreTarget _ => .TARGET
  | .rocAucTarget _ | .mseTarget _ _ | .rmseTarget _ _ => .TARGET

/-- The `_type` class attribute of each Metric class (its kind). -/
def Metric.type : Metric → MetricTypeEnum
  | .accuracy _ => .LABELS
  | .precisionMicro | .precisionMacro | .precisionTarget _ => .LABELS
  | .recallMicro | .recallMacro | .recallTarget _ => .LABELS
  | .f1ScoreMicro | .f1ScoreMacro | .f1ScoreTarget _ => .LABELS
  | .rocAucMicro | .rocAucMacro | .rocAucTarget _ => .PROBS
  | .mseTarget _ _ | .mseMacro | .rmseTarget _ _ | .rmseMacro => .SCORES

/-- The `id` property: default `f"{name}_{scope}"` from the Metric base
class; the target-scoped classes override it to `f"{name}_{target_name}"`
and `Accuracy` overrides it to just the lower-cased name. -/
def Metric.id : Metric → String
  | .accuracy _ => MetricNameEnum.value .ACCURACY
  | .precisionTarget t => MetricNameEnum.value .PRECISION ++ "_" ++ t
  | .recallTarget t => MetricNameEnum.value .RECALL ++ "_" ++ t
  | .f1ScoreTarget t => MetricNameEnum.value .F1_SCORE ++ "_" ++ t
  | .rocAucTarget t => MetricNameEnum.value .ROC_AUC ++ "_" ++ t
  | .mseTarget t _ => MetricNameEnum.value .MSE ++ "_" ++ t
  | .rmseTarget t _ => MetricNameEnum.value .RMSE ++ "_" ++ t
  | m => m.name.value ++ "_" ++ m.scope.value

/-- One metric computation record (`MetricResult` of `metrics/results.py`,
without the unmodelled metadata/options payloads). -/
structure MetricResult where
  name : MetricNameEnum
  scope : MetricScopeEnum
  type : MetricTypeEnum
  value : ℝ

/-- The `normalize` values `sklearn.metrics.confusion_matrix` accepts. -/
def normValid : Option String → Bool
  | none => true
  | some s => s == "true" || s == "pred" || s == "all"

/-- Arg-max decoding of one-hot rows back to labels via `column_names`
(`Accuracy.compute`); fails like `np.argmax` on an empty row. -/
def decodeLabels (cn : List String) : List (List PyVal) → Except PyErr (List String)
  | [] => .ok []
  | r :: rs =>
    match argmaxIdx r with
    | none => .error (.valueError "attempt to get argmax of an empty sequence")
    | some i =>
      match decodeLabels cn rs with
      | .error e => .error e
      | .ok rest => .ok (cn.getD i "" :: rest)

/-- `sklearn.metrics.accuracy_score`: fraction of exact matches (junk `0`
on the empty input, where sklearn's behaviour is degenerate). -/
def accuracyValue (tl pl : List String) : ℚ :=
  (((tl.zip pl).filter (fun p => p.1 == p.2)).length : ℚ) / (tl.length : ℚ)

/-- A dtype NumPy subtraction accepts (`-` raises a TypeError on string
and bool/object dtypes). -/
def numericDtype : DType → Bool
  | .tInt => true
  | .tFloat => true
  | _ => false

/-- `np.mean((y_true[:, i] - y_pred[:, i]) ** 2)`: the per-column mean
squared error shared by the four regression metrics. -/
def colMSE (yT yP : NDArray) (i : Nat) : ℚ :=
  let sq := (yT.rows.zip yP.rows).map
    (fun rp => ((rp.1.getD i (.vInt 0)).toQ - (rp.2.getD i (.vInt 0)).toQ) ^ 2)
  sq.sum / (sq.length : ℚ)

/-- `MSETarget.compute`: locate the target column (`list.index` raises a
ValueError when absent), then its mean squared error; the metadata
down-sampling (`metadata_series_length`) only fills the unmodelled
metadata and cannot raise. -/
def mseTargetCompute (targetName : String) (yT yP : NDArray) (cn : List String) :
    Except PyErr MetricResult :=
  match cn.findIdx? (fun c => c == targetName) with
  | none => .error (.valueError ("'" ++ targetName ++ "' is not in list"))
  | some i =>
    if numericDtype yT.dtype && numericDtype yP.dtype then
      .ok { name := .MSE, scope := .TARGET, type := .SCORES, value := ((colMSE yT yP i : ℚ) : ℝ) }
    else .error (.typeError "unsupported operand types for subtraction")

/-- `Metric.compute` for every class of the registry: the dispatch target
of `MetricSpec.compute`.  Each branch mirrors the corresponding
`compute` method; all metrics of the live registry accept exactly
`(y_true, y_pred, column_names)`. -/
noncomputable def Metric.compute : Metric → NDArray → NDArray → List String → Except PyErr MetricResult
  | .accuracy nrm, yT, yP, cn =>
    match decodeLabels cn yT.rows with
    | .error e => .error e
    | .ok tl =>
      match decodeLabels cn yP.rows with
      | .error e => .error e
      | .ok pl =>
        if normValid nrm then
          .ok { name := .ACCURACY, scope := .MICRO, type := .LABELS,
                value := ((accuracyValue tl pl : ℚ) : ℝ) }
        else .error (.valueError "normalize must be one of true, pred, all, None")
  | .precisionMicro, yT, yP, _ =>
    .ok { name := .PRECISION, scope := .MICRO, type := .LABELS,
          value := ((precisionOf yP.entries yT.entries : ℚ) : ℝ) }
  | .precisionMacro, yT, yP, cn =>
    if cn.length = 0 then .error .zeroDivisionError
    else
      .ok { name := .PRECISION, scope := .MACRO, type := .LABELS,
            value := ((((List.range cn.length).map
              (fun i => precisionOf (yP.colVals i) (yT.colVals i))).sum / (cn.length : ℚ) : ℚ) : ℝ) }
  | .precisionTarget t, yT, yP, cn =>
    match cn.findIdx? (fun c => c == t) with
    | none => .error (.valueError ("'" ++ t ++ "' is not in list"))
    | some i =>
      .ok { name := .PRECISION, scope := .TARGET, type := .LABELS,
            value := ((precisionOf (yP.colVals i) (yT.colVals i) : ℚ) : ℝ) }
  | .recallMicro, yT, yP, _ =>
    .ok { name := .RECALL, scope := .MICRO, type := .LABELS,
          value := ((recallOf yP.entries yT.entries : ℚ) : ℝ) }
  | .recallMacro, yT, yP, cn =>
    if cn.length = 0 then .error .zeroDivisionError
    else
      .ok { name := .RECALL, scope := .MACRO, type := .LABELS,
            value := ((((List.range cn.length).map
              (fun i => recallOf (yP.colVals i) (yT.colVals i))).sum / (cn.length : ℚ) : ℚ) : ℝ) }
  | .recallTarget t, yT, yP, cn =>
    match cn.findIdx? (fun c => c == t) with
    | none => .error (.valueError ("'" ++ t ++ "' is not in list"))
    | some i =>
      .ok { name := .RECALL, scope := .TARGET, type := .LABELS,
            value := ((recallOf (yP.colVals i) (yT.colVals i) : ℚ) : ℝ) }
  | .f1ScoreMicro, yT, yP, _ =>
    .ok { name := .F1_SCORE, scope := .MICRO, type := .LABELS,
          value := ((f1Of yP.entries yT.entries : ℚ) : ℝ) }
  | .f1ScoreMacro, yT, yP, cn =>
    if cn.length = 0 then .error .zeroDivisionError
    else
      .ok { name := .F1_SCORE, scope := .MACRO, type := .LABELS,
            value := ((((List.range cn.length).map
              (fun i => f1Of (yP.colVals i) (yT.colVals i))).sum / (cn.length : ℚ) : ℚ) : ℝ) }
  | .f1ScoreTarget t, yT, yP, cn =>
    match cn.findIdx? (fun c => c == t) with
    | none => .error (.valueError ("'" ++ t ++ "' is not in list"))
    | some i =>
      .ok { name := .F1_SCORE, scope := .TARGET, type := .LABELS,
            value := ((f1Of (yP.colVals i) (yT.colVals i) : ℚ) : ℝ) }
  | .rocAucMicro, yT, yP, _ =>
    match rocColAuc yT.entries (yP.entries.map PyVal.toQ) with
    | .error e => .error e
    | .ok a =>
      .ok { name := .ROC_AUC, scope := .MICRO, type := .PROBS, value := ((a : ℚ) : ℝ) }
  | .rocAucMacro, yT, yP, cn =>
    match macroAucsList yT yP (List.range cn.length) with
    | .error e => .error e
    | .ok aucs =>
      if aucs.length = 0 then .error .zeroDivisionError
      else
        .ok { name := .ROC_AUC, scope := .MACRO, type := .PROBS,
              value := ((aucs.sum / (aucs.length : ℚ) : ℚ) : ℝ) }
  | .rocAucTarget t, yT, yP, cn =>
    match cn.findIdx? (fun c => c == t) with
    | none => .error (.valueError ("'" ++ t ++ "' is not in list"))
    | some i =>
      match rocColAuc (yT.colVals i) ((yP.colVals i).map PyVal.toQ) with
      | .error e => .error e
      | .ok a =>
        .ok { name := .ROC_AUC, scope := .TARGET, type := .PROBS, value := ((a : ℚ) : ℝ) }
  | .mseTarget t _, yT, yP, cn => mseTargetCompute t yT yP cn
  | .mseMacro, yT, yP, _ =>
    if numericDtype yT.dtype && numericDtype yP.dtype then
      .ok { name := .MSE, scope := .MACRO, type := .SCORES,
            value := ((((List.range yT.ncols).map (colMSE yT yP)).sum / (yT.ncols : ℚ) : ℚ) : ℝ) }
    else .error (.typeError "unsupported operand types for subtraction")
  | .rmseTarget t _, yT, yP, cn =>
    match mseTargetCompute t yT yP cn with
    | .error e => .error e
    | .ok r =>
      .ok { name := .RMSE, scope := .TARGET, type := .SCORES, value := Real.sqrt r.value }
  | .rmseMacro, yT, yP, _ =>
    if numericDtype yT.dtype && numericDtype yP.dtype then
      .ok { name := .RMSE, scope := .MACRO, type := .SCORES,
            value := (((List.range yT.ncols).map
              (fun i => Real.sqrt ((colMSE yT yP i : ℚ) : ℝ))).sum / (yT.ncols : ℝ)) }
    else .error (.typeError "unsupported operand types for subtraction")

/-- The reducer implementations of `reducers/reducers.py`, dispatched via
the reducer registry: `latest` is `values[-1]` (IndexError when empty),
`mean`/`std` are `np.mean`/`np.std` (NaN, modelled as junk `0`, when
empty), `max`/`min`/`minmax` reduce with `np.max`/`np.min` (ValueError
when empty). -/
noncomputable def reducerApply : MetricReducerEnum → List ℝ → Except PyErr ℝ
  | .LATEST, vs =>
    match vs.getLast? with
    | none => .error .indexError
    | some v => .ok v
  | .MEAN, vs => .ok (vs.sum / (vs.length : ℝ))
  | .STD, vs =>
    .ok (Real.sqrt ((vs.map (fun x => (x - vs.sum / (vs.length : ℝ)) ^ 2)).sum / (vs.length : ℝ)))
  | .MAX, vs =>
    match vs with
    | [] => .error (.valueError "zero-size array to reduction operation maximum")
    | v :: ws => .ok (ws.foldl max v)
  | .MIN, vs =>
    match vs with
    | [] => .error (.valueError "zero-size array to reduction operation minimum")
    | v :: ws => .ok (ws.foldl min v)
  | .MINMAX, vs =>
    match vs with
    | [] => .error (.valueError "zero-size array to reduction operation maximum")
    | v :: ws => .ok (ws.foldl max v - ws.foldl min v)

/-- `MetricSpec` of `spec.py`: one instantiated metric, the reducers to
apply (default latest-only), and the accumulated result history. -/
structure MetricSpec where
  metric : Metric
  reducers : List MetricReducerEnum := [.LATEST]
  history : List MetricResult := []

/-- The `id` property: derived solely from the wrapped metric. -/
def MetricSpec.id (s : MetricSpec) : String := s.metric.id

/-- `MetricSpec.compute`: every metric of the live registry accepts
exactly `(y_true, y_pred, column_names)`, so the `inspect.signature`
keyword filtering always forwards `column_names`; the fresh result is
appended to the history.  The updated spec is returned (the Python
method mutates the spec in place and returns `None`). -/
noncomputable def MetricSpec.compute (s : MetricSpec) (yT yP : NDArray) (cn : List String) :
    Except PyErr MetricSpec :=
  match s.metric.compute yT yP cn with
  | .error e => .error e
  | .ok r => .ok { s with history := s.history ++ [r] }

/-- `get_values_history`: the values of the history, in insertion order. -/
noncomputable def MetricSpec.getValuesHistory (s : MetricSpec) : List ℝ :=
  s.history.map (fun r => r.value)

/-- The reducer loop of `get_reduced_values`: one
`(f"{id}_{reducer}", value)` entry per configured reducer, in
configuration order, propagating the first reducer failure. -/
noncomputable def reduceAll (idStr : String) (vals : List ℝ) :
    List MetricReducerEnum → Except PyErr (List (String × ℝ))
  | [] => .ok []
  | r :: rs =>
    match reducerApply r vals with
    | .error e => .error e
    | .ok v =>
      match reduceAll idStr vals rs with
      | .error e => .error e
      | .ok rest => .ok ((idStr ++ "_" ++ r.lowerName, v) :: rest)

/-- `MetricSpec.get_reduced_values`. -/
noncomputable def MetricSpec.getReducedValues (s : MetricSpec) :
    Except PyErr (List (String × ℝ)) :=
  reduceAll s.id s.getValuesHistory s.reducers

/-- Two back-to-back `get_reduced_values` calls with no intervening
`compute`. -/
noncomputable def MetricSpec.callReducedTwice (s : MetricSpec) :
    Except PyErr (List (String × ℝ)) × Except PyErr (List (String × ℝ)) :=
  (s.getReducedValues, s.getReducedValues)

/-- `MetricEvaluator` of `evaluator.py`: the ordered spec list. -/
structure MetricEvaluator where
  metricSpecs : List MetricSpec

/-- The seen-set walk of `__validate_metric_specs`. -/
def findDuplicateId (seen : List String) : List MetricSpec → Option String
  | [] => none
  | s :: rest => if s.id ∈ seen then some s.id else findDuplicateId (s.id :: seen) rest

/-- `__validate_metric_specs`: ValueError on the first repeated spec id. -/
def validateMetricSpecs (specs : List MetricSpec) : Option PyErr :=
  match findDuplicateId [] specs with
  | some i => some (.valueError ("Duplicate MetricSpec id found: " ++ i))
  | none => none

/-- `MetricEvaluator.__init__`: store the specs, validate eagerly. -/
def MetricEvaluator.init (specs : List MetricSpec) : Except PyErr MetricEvaluator :=
  match validateMetricSpecs specs with
  | some e => .error e
  | none => .ok ⟨specs⟩

/-- `__validate_common_inputs`: both arrays 2-D, identical shapes, and
`column_names` as long as the number of columns. -/
def validateCommonInputs (yT yP : NDArray) (cn : List String) : Option PyErr :=
  if yT.ndim ≠ 2 then
    some (.valueError "y_true must be a 2D array with shape (n_samples, n_classes)")
  else if yP.ndim ≠ 2 then
    some (.valueError "y_pred must be a 2D array with shape (n_samples, n_classes)")
  else if yT.shape ≠ yP.shape then
    some (.valueError "y_true and y_pred must have the same shape")
  else if cn.length ≠ yP.ncols then
    some (.valueError "column_names length must match number of columns in y_pred")
  else none

/-- `np.issubdtype(dtype, np.integer) or np.issubdtype(dtype, np.str_)`. -/
def isCategoricalDtype : DType → Bool
  | .tInt => true
  | .tStr => true
  | _ => false

/-- NumPy elementwise `(0.0 <= x) & (x <= 1.0)` on a cell. -/
def valIn01 : PyVal → Bool
  | .vFloat q => decide (0 ≤ q) && decide (q ≤ 1)
  | .vInt n => decide (0 ≤ n) && decide (n ≤ 1)
  | .vStr _ => false

/-- The dtype checks of `add_label_evaluation`. -/
def labelTypeChecks (yT yP : NDArray) : Option PyErr :=
  if ¬ isCategoricalDtype yT.dtype then
    some (.valueError "y_true must contain integers or strings for labels")
  else if ¬ isCategoricalDtype yP.dtype then
    some (.valueError "y_pred must contain integers or strings for labels")
  else none

/-- The dtype and range checks of `add_prob_evaluation`. -/
def probTypeChecks (yT yP : NDArray) : Option PyErr :=
  if ¬ isCategoricalDtype yT.dtype then
    some (.valueError "y_true must contain integers or strings for probabilities")
  else if yP.dtype ≠ .tFloat then
    some (.valueError "y_pred must contain floats for probabilities")
  else if ¬ yP.entries.all valIn01 then
    some (.valueError "y_pred must contain probabilities in the range 0.0 to 1.0")
  else none

/-- The dispatch loop shared by the three `add_*_evaluation` methods:
walk the spec list in order, recompute every spec whose metric kind
matches, stop at the first failing compute leaving that spec and all
later ones untouched (the Python loop iterates the filtered sublist of
matching specs and mutates in place; walking the full list is the same
state transformation since non-matching specs are never touched). -/
noncomputable def dispatchSpecs (t : MetricTypeEnum) (yT yP : NDArray) (cn : List String) :
    List MetricSpec → List MetricSpec × Option PyErr
  | [] => ([], none)
  | s :: rest =>
    if s.metric.type = t then
      match s.compute yT yP cn with
      | .ok s' =>
        let p := dispatchSpecs t yT yP cn rest
        (s' :: p.1, p.2)
      | .error e => (s :: rest, some e)
    else
      let p := dispatchSpecs t yT yP cn rest
      (s :: p.1, p.2)

/-- `add_label_evaluation`: common validation, label dtype checks, then
dispatch to the LABELS specs.  Returns the evaluator state after the
call together with the raised exception, if any. -/
noncomputable def MetricEvaluator.addLabelEvaluation (ev : MetricEvaluator)
    (yT yP : NDArray) (cn : List String) : MetricEvaluator × Option PyErr :=
  match validateCommonInputs yT yP cn with
  | some e => (ev, some e)
  | none =>
    match labelTypeChecks yT yP with
    | some e => (ev, some e)
    | none =>
      let p := dispatchSpecs .LABELS yT yP cn ev.metricSpecs
      (⟨p.1⟩, p.2)

/-- `add_prob_evaluation`: common validation, probability dtype/range
checks, then dispatch to the PROBS specs. -/
noncomputable def MetricEvaluator.addProbEvaluation (ev : MetricEvaluator)
    (yT yP : NDArray) (cn : List String) : MetricEvaluator × Option PyErr :=
  match validateCommonInputs yT yP cn with
  | some e => (ev, some e)
  | none =>
    match probTypeChecks yT yP with
    | some e => (ev, some e)
    | none =>
      let p := dispatchSpecs .PROBS yT yP cn ev.metricSpecs
      (⟨p.1⟩, p.2)

/-- `add_regression_evaluation`: common validation only (no dtype or
range constraint), then dispatch to the SCORES specs. -/
noncomputable def MetricEvaluator.addRegressionEvaluation (ev : MetricEvaluator)
    (yT yP : NDArray) (cn : List String) : MetricEvaluator × Option PyErr :=
  match validateCommonInputs yT yP cn with
  | some e => (ev, some e)
  | none =>
    let p := dispatchSpecs .SCORES yT yP cn ev.metricSpecs
    (⟨p.1⟩, p.2)

/-- The value of a successful metric computation (junk `0` on an error). -/
noncomputable def resultValue (e : Except PyErr MetricResult) : ℝ :=
  match e with
  | .ok r => r.value
  | .error _ => 0

/-- C6: the metric-kind taxonomy is a closed enumeration with exactly the
three members labels, probabilities and scores, and every metric variant
of the registry (including the regression metrics MSE and RMSE) carries
one of these three kinds. -/
theorem claim6_metric_kind_taxonomy :
    (∀ t : MetricTypeEnum, t = .LABELS ∨ t = .PROBS ∨ t = .SCORES) ∧
    ([MetricTypeEnum.LABELS, .PROBS, .SCORES] : List MetricTypeEnum).Nodup ∧
    (∀ m : Metric, m.type = .LABELS ∨ m.type = .PROBS ∨ m.type = .SCORES) ∧
    (∀ t L, Metric.type (.mseTarget t L) = .SCORES) ∧
    Metric.type .mseMacro = .SCORES ∧
    (∀ t L, Metric.type (.rmseTarget t L) = .SCORES) ∧
    Metric.type .rmseMacro = .SCORES := by
  refine ⟨fun t => ?_, by decide, fun m => ?_, fun t L => rfl, rfl, fun t L => rfl, rfl⟩
  · cases t <;> simp
  · cases m <;> simp [Metric.type]

/-- C10: because target-scoped ids drop the scope suffix,
`PrecisionTarget(target_name="micro")` and `PrecisionMicro()` share the
id "precision_micro", so an evaluator configured with both raises the
duplicate-identifier ValueError at construction. -/
theorem claim10_target_id_collision :
    Metric.id (.precisionTarget "micro") = "precision_micro" ∧
    Metric.id .precisionMicro = "precision_micro" ∧
    MetricEvaluator.init
        [{ metric := .precisionTarget "micro" }, { metric := .precisionMicro }] =
      .error (.valueError "Duplicate MetricSpec id found: precision_micro") := by
  exact ⟨rfl, rfl, rfl⟩

theorem findDuplicateId_eq_none_iff (specs : List MetricSpec) :
    ∀ seen : List String,
      findDuplicateId seen specs = none ↔
        ((specs.map MetricSpec.id).Nodup ∧ ∀ s ∈ specs, s.id ∉ seen) := by
  induction specs with
  | nil => intro seen; simp [findDuplicateId]
  | cons s rest ih =>
    intro seen
    by_cases h : s.id ∈ seen
    · simp only [findDuplicateId, if_pos h]
      simp only [List.map_cons, List.nodup_cons, List.mem_cons]
      constructor
      · intro hfalse; cases hfalse
      · rintro ⟨-, hall⟩
        exact absurd h (hall s (Or.inl rfl))
    · simp only [findDuplicateId, if_neg h, ih]
      simp only [List.map_cons, List.nodup_cons, List.mem_map, List.mem_cons]
      constructor
      · rintro ⟨hnodup, hall⟩
        refine ⟨⟨?_, hnodup⟩, ?_⟩
        · rintro ⟨x, hx, hxid⟩
          exact (hall x hx) (by simp [hxid])
        · rintro x (rfl | hx)
          · exact h
          · intro hmem
            exact (hall x hx) (by simp [hmem])
      · rintro ⟨⟨hnotin, hnodup⟩, hall⟩
        refine ⟨hnodup, ?_⟩
        intro x hx hmem
        rcases hmem with hxeq | hxseen
        · exact hnotin ⟨x, hx, hxeq⟩
        · exact hall x (Or.inr hx) hxseen

/-- C3: constructing the evaluator from a spec list with two identical
ids raises the duplicate-identifier ValueError immediately, while a list
of pairwise-distinct ids constructs successfully. -/
theorem claim3_duplicate_id_raises_at_construction (specs : List MetricSpec) :
    ((specs.map MetricSpec.id).Nodup → MetricEvaluator.init specs = .ok ⟨specs⟩) ∧
    (¬ (specs.map MetricSpec.id).Nodup →
      ∃ msg, MetricEvaluator.init specs = .error (.valueError msg)) := by
  constructor
  · intro hnodup
    have hnone : findDuplicateId [] specs = none := by
      rw [findDuplicateId_eq_none_iff]
      exact ⟨hnodup, by simp⟩
    simp [MetricEvaluator.init, validateMetricSpecs, hnone]
  · intro hdup
    cases hfd : findDuplicateId [] specs with
    | none =>
      exfalso
      exact hdup ((findDuplicateId_eq_none_iff specs []).mp hfd).1
    | some i =>
      refine ⟨"Duplicate MetricSpec id found: " ++ i, ?_⟩
      simp [MetricEvaluator.init, validateMetricSpecs, hfd]

/-- Witness for C3 at a concrete duplicate configuration. -/
theorem claim3_witness :
    (¬ (([{ metric := .rocAucTarget "cat" }, { metric := .rocAucTarget "cat" }] :
        List MetricSpec).map MetricSpec.id).Nodup) ∧
    ∃ msg,
      MetricEvaluator.init
          [{ metric := .rocAucTarget "cat" }, { metric := .rocAucTarget "cat" }] =
        .error (.valueError msg) :=
  ⟨by decide,
    (claim3_duplicate_id_raises_at_construction
      [{ metric := .rocAucTarget "cat" }, { metric := .rocAucTarget "cat" }]).2 (by decide)⟩

theorem reduceAll_error_of_empty (idStr : String) :
    ∀ rs : List MetricReducerEnum,
      (MetricReducerEnum.LATEST ∈ rs ∨ MetricReducerEnum.MAX ∈ rs ∨
        MetricReducerEnum.MIN ∈ rs) →
      ∃ e, reduceAll idStr [] rs = .error e := by
  intro rs
  induction rs with
  | nil => intro h; simp at h
  | cons r rest ih =>
    intro h
    cases r with
    | LATEST => exact ⟨.indexError, rfl⟩
    | MAX => exact ⟨.valueError "zero-size array to reduction operation maximum", rfl⟩
    | MIN => exact ⟨.valueError "zero-size array to reduction operation minimum", rfl⟩
    | MINMAX =>
      exact ⟨.valueError "zero-size array to reduction operation maximum", rfl⟩
    | MEAN =>
      have hrest : MetricReducerEnum.LATEST ∈ rest ∨ MetricReducerEnum.MAX ∈ rest ∨
          MetricReducerEnum.MIN ∈ rest := by
        rcases h with h | h | h <;> simp at h <;> tauto
      obtain ⟨e, he⟩ := ih hrest
      refine ⟨e, ?_⟩
      simp only [reduceAll, reducerApply, he]
    | STD =>
      have hrest : MetricReducerEnum.LATEST ∈ rest ∨ MetricReducerEnum.MAX ∈ rest ∨
          MetricReducerEnum.MIN ∈ rest := by
        rcases h with h | h | h <;> simp at h <;> tauto
      obtain ⟨e, he⟩ := ih hrest
      refine ⟨e, ?_⟩
      simp only [reduceAll, reducerApply, he]

/-- C8: a MetricSpec with an empty history whose reducers include one
that requires at least one element (latest, max or min) raises the
underlying empty-sequence failure from `get_reduced_values` instead of
returning a default. -/
theorem claim8_empty_history_reducer_raises (s : MetricSpec)
    (hh : s.history = [])
    (hr : MetricReducerEnum.LATEST ∈ s.reducers ∨ MetricReducerEnum.MAX ∈ s.reducers ∨
      MetricReducerEnum.MIN ∈ s.reducers) :
    ∃ e, s.getReducedValues = .error e := by
  have hvals : s.getValuesHistory = [] := by
    simp [MetricSpec.getValuesHistory, hh]
  unfold MetricSpec.getReducedValues
  rw [hvals]
  exact reduceAll_error_of_empty _ _ hr

/-- Witness for C8: an empty-history spec with the latest reducer. -/
theorem claim8_witness :
    (({ metric := .precisionMicro, reducers := [.LATEST], history := [] } : MetricSpec).history
        = []) ∧
    ∃ e,
      MetricSpec.getReducedValues
          { metric := .precisionMicro, reducers := [.LATEST], history := [] } =
        .error e :=
  ⟨rfl,
    claim8_empty_history_reducer_raises
      { metric := .precisionMicro, reducers := [.LATEST], history := [] } rfl
      (Or.inl (by simp))⟩

theorem foldl_max_mem (ws : List ℝ) : ∀ v : ℝ, ws.foldl max v = v ∨ ws.foldl max v ∈ ws := by
  induction ws with
  | nil => intro v; simp
  | cons w ws ih =>
    intro v
    simp only [List.foldl_cons, List.mem_cons]
    rcases ih (max v w) with h | h
    · rcases le_total v w with hvw | hwv
      · right; left; rw [h, max_eq_right hvw]
      · left; rw [h, max_eq_left hwv]
    · right; right; exact h

theorem le_foldl_max (ws : List ℝ) : ∀ v : ℝ, v ≤ ws.foldl max v := by
  induction ws with
  | nil => intro v; simp
  | cons w ws ih =>
    intro v
    simp only [List.foldl_cons]
    exact le_trans (le_max_left v w) (ih (max v w))

theorem mem_le_foldl_max (ws : List ℝ) : ∀ (v x : ℝ), x ∈ ws → x ≤ ws.foldl max v := by
  induction ws with
  | nil => intro v x hx; simp at hx
  | cons w ws ih =>
    intro v x hx
    simp only [List.foldl_cons]
    rcases List.mem_cons.mp hx with rfl | hx
    · exact le_trans (le_max_right v x) (le_foldl_max ws (max v x))
    · exact ih (max v w) x hx

theorem foldl_min_mem (ws : List ℝ) : ∀ v : ℝ, ws.foldl min v = v ∨ ws.foldl min v ∈ ws := by
  induction ws with
  | nil => intro v; simp
  | cons w ws ih =>
    intro v
    simp only [List.foldl_cons, List.mem_cons]
    rcases ih (min v w) with h | h
    · rcases le_total v w with hvw | hwv
      · left; rw [h, min_eq_left hvw]
      · right; left; rw [h, min_eq_right hwv]
    · right; right; exact h

theorem foldl_min_le (ws : List ℝ) : ∀ v : ℝ, ws.foldl min v ≤ v := by
  induction ws with
  | nil => intro v; simp
  | cons w ws ih =>
    intro v
    simp only [List.foldl_cons]
    exact le_trans (ih (min v w)) (min_le_left v w)

theorem foldl_min_le_mem (ws : List ℝ) : ∀ (v x : ℝ), x ∈ ws → ws.foldl min v ≤ x := by
  induction ws with
  | nil => intro v x hx; simp at hx
  | cons w ws ih =>
    intro v x hx
    simp only [List.foldl_cons]
    rcases List.mem_cons.mp hx with rfl | hx
    · exact le_trans (foldl_min_le ws (min v x)) (min_le_right v x)
    · exact ih (min v w) x hx

/-- C7: over a non-empty value history, the latest reducer yields the
last element, the mean reducer the arithmetic mean, the max/min reducers
the maximum/minimum, and the minmax reducer maximum minus minimum; and
two back-to-back `get_reduced_values` calls with no intervening compute
yield identical output. -/
theorem claim7_reducer_semantics (l : List ℝ) (h : l ≠ []) :
    reducerApply .LATEST l = .ok (l.getLast h) ∧
    reducerApply .MEAN l = .ok (l.sum / (l.length : ℝ)) ∧
    (∃ r, reducerApply .MAX l = .ok r ∧ r ∈ l ∧ ∀ x ∈ l, x ≤ r) ∧
    (∃ r, reducerApply .MIN l = .ok r ∧ r ∈ l ∧ ∀ x ∈ l, r ≤ x) ∧
    (∃ rmax rmin, reducerApply .MINMAX l = .ok (rmax - rmin) ∧
      rmax ∈ l ∧ (∀ x ∈ l, x ≤ rmax) ∧ rmin ∈ l ∧ (∀ x ∈ l, rmin ≤ x)) ∧
    (∀ s : MetricSpec, s.callReducedTwice.1 = s.callReducedTwice.2) := by
  obtain ⟨v, ws, rfl⟩ : ∃ v ws, l = v :: ws := by
    cases l with
    | nil => exact absurd rfl h
    | cons v ws => exact ⟨v, ws, rfl⟩
  refine ⟨?_, rfl, ?_, ?_, ?_, fun s => rfl⟩
  · simp only [reducerApply, List.getLast?_eq_getLast _ h]
  · refine ⟨ws.foldl max v, rfl, ?_, ?_⟩
    · rcases foldl_max_mem ws v with hv | hv
      · rw [hv]; exact List.mem_cons_self _ _
      · exact List.mem_cons_of_mem _ hv
    · intro x hx
      rcases List.mem_cons.mp hx with rfl | hx
      · exact le_foldl_max ws x
      · exact mem_le_foldl_max ws v x hx
  · refine ⟨ws.foldl min v, rfl, ?_, ?_⟩
    · rcases foldl_min_mem ws v with hv | hv
      · rw [hv]; exact List.mem_cons_self _ _
      · exact List.mem_cons_of_mem _ hv
    · intro x hx
      rcases List.mem_cons.mp hx with rfl | hx
      · exact foldl_min_le ws x
      · exact foldl_min_le_mem ws v x hx
  · refine ⟨ws.foldl max v, ws.foldl min v, rfl, ?_, ?_, ?_, ?_⟩
    · rcases foldl_max_mem ws v with hv | hv
      · rw [hv]; exact List.mem_cons_self _ _
      · exact List.mem_cons_of_mem _ hv
    · intro x hx
      rcases List.mem_cons.mp hx with rfl | hx
      · exact le_foldl_max ws x
      · exact mem_le_foldl_max ws v x hx
    · rcases foldl_min_mem ws v with hv | hv
      · rw [hv]; exact List.mem_cons_self _ _
      · exact List.mem_cons_of_mem _ hv
    · intro x hx
      rcases List.mem_cons.mp hx with rfl | hx
      · exact foldl_min_le ws x
      · exact foldl_min_le_mem ws v x hx

/-- Witness for C7 at the history `[1, 2, 3]`. -/
theorem claim7_witness :
    (([(1 : ℝ), 2, 3] : List ℝ) ≠ []) ∧
    reducerApply .MEAN [(1 : ℝ), 2, 3] =
      .ok (([(1 : ℝ), 2, 3] : List ℝ).sum / (([(1 : ℝ), 2, 3] : List ℝ).length : ℝ)) :=
  ⟨by simp, (claim7_reducer_semantics [(1 : ℝ), 2, 3] (by simp)).2.1⟩

/-- The common-validation failure modes: a non-2-D array, differing
shapes, or a `column_names` length differing from the column count. -/
def CommonMalformed (yT yP : NDArray) (cn : List String) : Prop :=
  yT.ndim ≠ 2 ∨ yP.ndim ≠ 2 ∨ yT.shape ≠ yP.shape ∨ cn.length ≠ yP.ncols

/-- The label dtype failure modes: a non-integer/non-string dtype on
either array. -/
def LabelDtypeBad (yT yP : NDArray) : Prop :=
  isCategoricalDtype yT.dtype = false ∨ isCategoricalDtype yP.dtype = false

/-- The probability failure modes: non-categorical truth dtype,
non-floating prediction dtype, or a prediction cell outside `[0, 1]`. -/
def ProbInputBad (yT yP : NDArray) : Prop :=
  isCategoricalDtype yT.dtype = false ∨ yP.dtype ≠ .tFloat ∨
    ∃ v ∈ yP.entries, valIn01 v = false

theorem validateCommonInputs_some_of (yT yP : NDArray) (cn : List String)
    (h : CommonMalformed yT yP cn) :
    ∃ m, validateCommonInputs yT yP cn = some (.valueError m) := by
  unfold validateCommonInputs
  split_ifs <;>
    first
      | exact ⟨_, rfl⟩
      | (exfalso; rcases h with h | h | h | h <;> simp_all)

theorem labelTypeChecks_some_of (yT yP : NDArray) (h : LabelDtypeBad yT yP) :
    ∃ m, labelTypeChecks yT yP = some (.valueError m) := by
  unfold labelTypeChecks
  split_ifs <;>
    first
      | exact ⟨_, rfl⟩
      | (exfalso; rcases h with h | h <;> simp_all)

theorem probTypeChecks_some_of (yT yP : NDArray) (h : ProbInputBad yT yP) :
    ∃ m, probTypeChecks yT yP = some (.valueError m) := by
  unfold probTypeChecks
  split_ifs <;>
    first
      | exact ⟨_, rfl⟩
      | (exfalso; rcases h with h | h | ⟨v, hv, hv01⟩ <;> simp_all [List.all_eq_true])

/-- C2: on any malformed input (non-2-D array, shape mismatch, wrong
`column_names` length, non-categorical dtype for labels, non-floating or
out-of-range predictions for probabilities) the corresponding
`add_*_evaluation` call raises a ValueError and the evaluator state —
every spec's history included — is unchanged. -/
theorem claim2_invalid_inputs_raise_and_preserve_state (ev : MetricEvaluator)
    (yT yP : NDArray) (cn : List String) :
    (CommonMalformed yT yP cn ∨ LabelDtypeBad yT yP →
      ∃ m, ev.addLabelEvaluation yT yP cn = (ev, some (.valueError m))) ∧
    (CommonMalformed yT yP cn ∨ ProbInputBad yT yP →
      ∃ m, ev.addProbEvaluation yT yP cn = (ev, some (.valueError m))) ∧
    (CommonMalformed yT yP cn →
      ∃ m, ev.addRegressionEvaluation yT yP cn = (ev, some (.valueError m))) := by
  refine ⟨?_, ?_, ?_⟩
  · rintro (h | h)
    · obtain ⟨m, hm⟩ := validateCommonInputs_some_of yT yP cn h
      exact ⟨m, by simp [MetricEvaluator.addLabelEvaluation, hm]⟩
    · cases hv : validateCommonInputs yT yP cn with
      | some e =>
        have : ∃ m, validateCommonInputs yT yP cn = some (.valueError m) := by
          revert hv
          unfold validateCommonInputs
          split_ifs <;> intro hv <;> first | exact ⟨_, rfl⟩ | cases hv
        obtain ⟨m, hm⟩ := this
        exact ⟨m, by simp [MetricEvaluator.addLabelEvaluation, hm]⟩
      | none =>
        obtain ⟨m, hm⟩ := labelTypeChecks_some_of yT yP h
        exact ⟨m, by simp [MetricEvaluator.addLabelEvaluation, hv, hm]⟩
  · rintro (h | h)
    · obtain ⟨m, hm⟩ := validateCommonInputs_some_of yT yP cn h
      exact ⟨m, by simp [MetricEvaluator.addProbEvaluation, hm]⟩
    · cases hv : validateCommonInputs yT yP cn with
      | some e =>
        have : ∃ m, validateCommonInputs yT yP cn = some (.valueError m) := by
          revert hv
          unfold validateCommonInputs
          split_ifs <;> intro hv <;> first | exact ⟨_, rfl⟩ | cases hv
        obtain ⟨m, hm⟩ := this
        exact ⟨m, by simp [MetricEvaluator.addProbEvaluation, hm]⟩
      | none =>
        obtain ⟨m, hm⟩ := probTypeChecks_some_of yT yP h
        exact ⟨m, by simp [MetricEvaluator.addProbEvaluation, hv, hm]⟩
  · intro h
    obtain ⟨m, hm⟩ := validateCommonInputs_some_of yT yP cn h
    exact ⟨m, by simp [MetricEvaluator.addRegressionEvaluation, hm]⟩

/-- Witness for C2: a 1-D input raises on every method and leaves a
one-spec evaluator untouched. -/
theorem claim2_witness :
    CommonMalformed ⟨.tInt, [3], []⟩ ⟨.tInt, [3], []⟩ [] ∧
    (∃ m,
      MetricEvaluator.addLabelEvaluation ⟨[{ metric := .precisionMicro }]⟩
          ⟨.tInt, [3], []⟩ ⟨.tInt, [3], []⟩ [] =
        (⟨[{ metric := .precisionMicro }]⟩, some (.valueError m))) :=
  ⟨by unfold CommonMalformed; decide,
    (claim2_invalid_inputs_raise_and_preserve_state ⟨[{ metric := .precisionMicro }]⟩
        ⟨.tInt, [3], []⟩ ⟨.tInt, [3], []⟩ []).1 (Or.inl (by unfold CommonMalformed; decide))⟩

/-- TP of the pooled stream: prediction and truth cells both positive. -/
def specTP (preds trues : List PyVal) : Nat :=
  ((preds.zip trues).filter (fun p => valEqOne p.1 && valEqOne p.2)).length

/-- FP of the pooled stream: prediction positive, truth not positive. -/
def specFP (preds trues : List PyVal) : Nat :=
  ((preds.zip trues).filter (fun p => valEqOne p.1 && ! valEqOne p.2)).length

/-- FN of the pooled stream: prediction not positive, truth positive. -/
def specFN (preds trues : List PyVal) : Nat :=
  ((preds.zip trues).filter (fun p => ! valEqOne p.1 && valEqOne p.2)).length

theorem valEqZero_eq_not_valEqOne (v : PyVal)
    (hb : valEqOne v = true ∨ valEqZero v = true) : valEqZero v = ! valEqOne v := by
  cases v with
  | vInt n =>
    simp only [valEqOne, valEqZero, beq_iff_eq] at hb ⊢
    rcases hb with rfl | rfl <;> decide
  | vFloat q =>
    simp only [valEqOne, valEqZero, beq_iff_eq] at hb ⊢
    rcases hb with rfl | rfl <;> norm_num
  | vStr t => simp [valEqOne, valEqZero] at hb

theorem countPair_one_zero_eq_specFP (preds trues : List PyVal)
    (hbt : ∀ v ∈ trues, valEqOne v = true ∨ valEqZero v = true) :
    countPair valEqOne valEqZero preds trues = specFP preds trues := by
  unfold countPair specFP
  congr 1
  apply List.filter_congr
  rintro ⟨a, b⟩ hab
  have hmem := (List.of_mem_zip hab).2
  rw [valEqZero_eq_not_valEqOne b (hbt b hmem)]

theorem countPair_zero_one_eq_specFN (preds trues : List PyVal)
    (hbp : ∀ v ∈ preds, valEqOne v = true ∨ valEqZero v = true) :
    countPair valEqZero valEqOne preds trues = specFN preds trues := by
  unfold countPair specFN
  congr 1
  apply List.filter_congr
  rintro ⟨a, b⟩ hab
  have hmem := (List.of_mem_zip hab).1
  rw [valEqZero_eq_not_valEqOne a (hbp a hmem)]

theorem precisionOf_eq_spec (preds trues : List PyVal)
    (hbt : ∀ v ∈ trues, valEqOne v = true ∨ valEqZero v = true) :
    precisionOf preds trues =
      if specTP preds trues + specFP preds trues = 0 then 0
      else (specTP preds trues : ℚ) /
        ((specTP preds trues : ℚ) + (specFP preds trues : ℚ)) := by
  unfold precisionOf
  rw [countPair_one_zero_eq_specFP preds trues hbt]
  have htp : countPair valEqOne valEqOne preds trues = specTP preds trues := rfl
  rw [htp]
  rcases Nat.eq_zero_or_pos (specTP preds trues + specFP preds trues) with h | h
  · simp [h]
  · simp [h, Nat.pos_iff_ne_zero.mp h]

theorem recallOf_eq_spec (preds trues : List PyVal)
    (hbp : ∀ v ∈ preds, valEqOne v = true ∨ valEqZero v = true) :
    recallOf preds trues =
      if specTP preds trues + specFN preds trues = 0 then 0
      else (specTP preds trues : ℚ) /
        ((specTP preds trues : ℚ) + (specFN preds trues : ℚ)) := by
  unfold recallOf
  rw [countPair_zero_one_eq_specFN preds trues hbp]
  have htp : countPair valEqOne valEqOne preds trues = specTP preds trues := rfl
  rw [htp]
  rcases Nat.eq_zero_or_pos (specTP preds trues + specFN preds trues) with h | h
  · simp [h]
  · simp [h, Nat.pos_iff_ne_zero.mp h]

theorem f1Of_eq_spec (preds trues : List PyVal)
    (hbp : ∀ v ∈ preds, valEqOne v = true ∨ valEqZero v = true)
    (hbt : ∀ v ∈ trues, valEqOne v = true ∨ valEqZero v = true) :
    f1Of preds trues =
      if 2 * specTP preds trues + specFP preds trues + specFN preds trues = 0 then 0
      else (2 * specTP preds trues : ℚ) /
        ((2 * specTP preds trues : ℚ) + (specFN preds trues : ℚ) +
          (specFP preds trues : ℚ)) := by
  unfold f1Of
  rw [countPair_one_zero_eq_specFP preds trues hbt,
    countPair_zero_one_eq_specFN preds trues hbp]
  have htp : countPair valEqOne valEqOne preds trues = specTP preds trues := rfl
  rw [htp]
  rcases Nat.eq_zero_or_pos
      (2 * specTP preds trues + specFP preds trues + specFN preds trues) with h | h
  · have h' : 2 * specTP preds trues + specFN preds trues + specFP preds trues = 0 := by
      omega
    simp [h, h']
  · have h' : 0 < 2 * specTP preds trues + specFN preds trues + specFP preds trues := by
      omega
    simp [h', Nat.pos_iff_ne_zero.mp h]

/-- C4: on binarized 2-D inputs the micro-scoped precision, recall and F1
metrics pool all cells into one flattened stream, count TP/FP/FN with
value==1 as positive, and return TP/(TP+FP), TP/(TP+FN) and
2TP/(2TP+FP+FN) respectively, with value 0.0 (not NaN, not an error)
whenever the denominator is zero — the computation always succeeds. -/
theorem claim4_micro_precision_recall_f1 (yT yP : NDArray) (cn : List String)
    (hbT : ∀ v ∈ yT.entries, valEqOne v = true ∨ valEqZero v = true)
    (hbP : ∀ v ∈ yP.entries, valEqOne v = true ∨ valEqZero v = true) :
    (Metric.compute .precisionMicro yT yP cn = .ok
      { name := .PRECISION, scope := .MICRO, type := .LABELS,
        value :=
          if specTP yP.entries yT.entries + specFP yP.entries yT.entries = 0 then 0
          else (specTP yP.entries yT.entries : ℝ) /
            ((specTP yP.entries yT.entries : ℝ) + (specFP yP.entries yT.entries : ℝ)) }) ∧
    (Metric.compute .recallMicro yT yP cn = .ok
      { name := .RECALL, scope := .MICRO, type := .LABELS,
        value :=
          if specTP yP.entries yT.entries + specFN yP.entries yT.entries = 0 then 0
          else (specTP yP.entries yT.entries : ℝ) /
            ((specTP yP.entries yT.entries : ℝ) + (specFN yP.entries yT.entries : ℝ)) }) ∧
    (Metric.compute .f1ScoreMicro yT yP cn = .ok
      { name := .F1_SCORE, scope := .MICRO, type := .LABELS,
        value :=
          if 2 * specTP yP.entries yT.entries + specFP yP.entries yT.entries +
              specFN yP.entries yT.entries = 0 then 0
          else (2 * specTP yP.entries yT.entries : ℝ) /
            ((2 * specTP yP.entries yT.entries : ℝ) + (specFN yP.entries yT.entries : ℝ) +
              (specFP yP.entries yT.entries : ℝ)) }) := by
  refine ⟨?_, ?_, ?_⟩
  · have hv : ((precisionOf yP.entries yT.entries : ℚ) : ℝ) =
        if specTP yP.entries yT.entries + specFP yP.entries yT.entries = 0 then (0 : ℝ)
        else (specTP yP.entries yT.entries : ℝ) /
          ((specTP yP.entries yT.entries : ℝ) + (specFP yP.entries yT.entries : ℝ)) := by
      rw [precisionOf_eq_spec _ _ hbT]
      split_ifs with h
      · simp
      · push_cast
        ring
    simp only [Metric.compute]
    rw [hv]
  · have hv : ((recallOf yP.entries yT.entries : ℚ) : ℝ) =
        if specTP yP.entries yT.entries + specFN yP.entries yT.entries = 0 then (0 : ℝ)
        else (specTP yP.entries yT.entries : ℝ) /
          ((specTP yP.entries yT.entries : ℝ) + (specFN yP.entries yT.entries : ℝ)) := by
      rw [recallOf_eq_spec _ _ hbP]
      split_ifs with h
      · simp
      · push_cast
        ring
    simp only [Metric.compute]
    rw [hv]
  · have hv : ((f1Of yP.entries yT.entries : ℚ) : ℝ) =
        if 2 * specTP yP.entries yT.entries + specFP yP.entries yT.entries +
            specFN yP.entries yT.entries = 0 then (0 : ℝ)
        else (2 * specTP yP.entries yT.entries : ℝ) /
          ((2 * specTP yP.entries yT.entries : ℝ) + (specFN yP.entries yT.entries : ℝ) +
            (specFP yP.entries yT.entries : ℝ)) := by
      rw [f1Of_eq_spec _ _ hbP hbT]
      split_ifs with h
      · simp
      · push_cast
        ring
    simp only [Metric.compute]
    rw [hv]

/-- Witness for C4 at a concrete binarized pair of arrays. -/
theorem claim4_witness :
    (∀ v ∈ (⟨.tInt, [2, 1], [[.vInt 1], [.vInt 0]]⟩ : NDArray).entries,
      valEqOne v = true ∨ valEqZero v = true) ∧
    Metric.compute .precisionMicro ⟨.tInt, [2, 1], [[.vInt 1], [.vInt 0]]⟩
        ⟨.tInt, [2, 1], [[.vInt 1], [.vInt 1]]⟩ ["a"] = .ok
      { name := .PRECISION, scope := .MICRO, type := .LABELS,
        value :=
          if specTP (NDArray.entries ⟨.tInt, [2, 1], [[.vInt 1], [.vInt 1]]⟩)
              (NDArray.entries ⟨.tInt, [2, 1], [[.vInt 1], [.vInt 0]]⟩) +
            specFP (NDArray.entries ⟨.tInt, [2, 1], [[.vInt 1], [.vInt 1]]⟩)
              (NDArray.entries ⟨.tInt, [2, 1], [[.vInt 1], [.vInt 0]]⟩) = 0 then 0
          else (specTP (NDArray.entries ⟨.tInt, [2, 1], [[.vInt 1], [.vInt 1]]⟩)
              (NDArray.entries ⟨.tInt, [2, 1], [[.vInt 1], [.vInt 0]]⟩) : ℝ) /
            ((specTP (NDArray.entries ⟨.tInt, [2, 1], [[.vInt 1], [.vInt 1]]⟩)
              (NDArray.entries ⟨.tInt, [2, 1], [[.vInt 1], [.vInt 0]]⟩) : ℝ) +
              (specFP (NDArray.entries ⟨.tInt, [2, 1], [[.vInt 1], [.vInt 1]]⟩)
                (NDArray.entries ⟨.tInt, [2, 1], [[.vInt 1], [.vInt 0]]⟩) : ℝ)) } :=
  ⟨by decide,
    (claim4_micro_precision_recall_f1 ⟨.tInt, [2, 1], [[.vInt 1], [.vInt 0]]⟩
      ⟨.tInt, [2, 1], [[.vInt 1], [.vInt 1]]⟩ ["a"] (by decide) (by decide)).1⟩

/-- C5 (amended): RMSE-target is a thin decorator over MSE-target — its
outcome is the MSE-target outcome with the value square-rooted (errors
propagate unchanged) — while RMSE-macro is the arithmetic mean of the
per-column root MSEs (the column-wise RMSEs), not the square root of the
MSE-macro value; MSE-macro itself is the mean of the per-column MSEs. -/
theorem claim5_rmse_relations (t : String) (L : Nat) (yT yP : NDArray) (cn : List String)
    (hT : numericDtype yT.dtype = true) (hP : numericDtype yP.dtype = true) :
    ((Metric.compute (.rmseTarget t L) yT yP cn).map (fun r => r.value) =
      (Metric.compute (.mseTarget t L) yT yP cn).map (fun r => Real.sqrt r.value)) ∧
    (Metric.compute .mseMacro yT yP cn = .ok
      { name := .MSE, scope := .MACRO, type := .SCORES,
        value :=
          ((((List.range yT.ncols).map (colMSE yT yP)).sum / (yT.ncols : ℚ) : ℚ) : ℝ) }) ∧
    (Metric.compute .rmseMacro yT yP cn = .ok
      { name := .RMSE, scope := .MACRO, type := .SCORES,
        value := ((List.range yT.ncols).map
          (fun i => Real.sqrt ((colMSE yT yP i : ℚ) : ℝ))).sum / (yT.ncols : ℝ) }) := by
  refine ⟨?_, ?_, ?_⟩
  · cases h : mseTargetCompute t yT yP cn with
    | error e => simp [Metric.compute, h, Except.map]
    | ok r => simp [Metric.compute, h, Except.map]
  · simp [Metric.compute, hT, hP]
  · simp [Metric.compute, hT, hP]

/-- Witness for C5 at a concrete numeric input. -/
theorem claim5_witness :
    numericDtype (NDArray.dtype ⟨.tInt, [1, 1], [[.vInt 3]]⟩) = true ∧
    (Metric.compute (.rmseTarget "a" 1000) ⟨.tInt, [1, 1], [[.vInt 3]]⟩
        ⟨.tInt, [1, 1], [[.vInt 1]]⟩ ["a"]).map (fun r => r.value) =
      (Metric.compute (.mseTarget "a" 1000) ⟨.tInt, [1, 1], [[.vInt 3]]⟩
        ⟨.tInt, [1, 1], [[.vInt 1]]⟩ ["a"]).map (fun r => Real.sqrt r.value) :=
  ⟨rfl,
    (claim5_rmse_relations "a" 1000 ⟨.tInt, [1, 1], [[.vInt 3]]⟩
      ⟨.tInt, [1, 1], [[.vInt 1]]⟩ ["a"] rfl rfl).1⟩

/-- C5 counterexample: at y_true = [[0, 0]], y_pred = [[0, 2]] the macro
MSE is 2 and the macro RMSE is 1 (the mean of the column RMSEs 0 and 2),
which differs from √2 — so RMSE-macro is not the square root of
MSE-macro as the claim states. -/
theorem claim5_counterexample :
    resultValue (Metric.compute .mseMacro ⟨.tInt, [1, 2], [[.vInt 0, .vInt 0]]⟩
        ⟨.tInt, [1, 2], [[.vInt 0, .vInt 2]]⟩ ["a", "b"]) = 2 ∧
    resultValue (Metric.compute .rmseMacro ⟨.tInt, [1, 2], [[.vInt 0, .vInt 0]]⟩
        ⟨.tInt, [1, 2], [[.vInt 0, .vInt 2]]⟩ ["a", "b"]) = 1 ∧
    resultValue (Metric.compute .rmseMacro ⟨.tInt, [1, 2], [[.vInt 0, .vInt 0]]⟩
        ⟨.tInt, [1, 2], [[.vInt 0, .vInt 2]]⟩ ["a", "b"]) ≠
      Real.sqrt (resultValue (Metric.compute .mseMacro ⟨.tInt, [1, 2], [[.vInt 0, .vInt 0]]⟩
        ⟨.tInt, [1, 2], [[.vInt 0, .vInt 2]]⟩ ["a", "b"])) := by
  have h0 : colMSE ⟨.tInt, [1, 2], [[.vInt 0, .vInt 0]]⟩
      ⟨.tInt, [1, 2], [[.vInt 0, .vInt 2]]⟩ 0 = 0 := by
    norm_num [colMSE, PyVal.toQ]
  have h1 : colMSE ⟨.tInt, [1, 2], [[.vInt 0, .vInt 0]]⟩
      ⟨.tInt, [1, 2], [[.vInt 0, .vInt 2]]⟩ 1 = 4 := by
    norm_num [colMSE, PyVal.toQ]
  have hmse : resultValue (Metric.compute .mseMacro ⟨.tInt, [1, 2], [[.vInt 0, .vInt 0]]⟩
      ⟨.tInt, [1, 2], [[.vInt 0, .vInt 2]]⟩ ["a", "b"]) = 2 := by
    simp only [Metric.compute, resultValue, NDArray.ncols]
    norm_num [List.range_succ, h0, h1, numericDtype]
  have hsqrt4 : Real.sqrt (4 : ℝ) = 2 := by
    rw [show (4 : ℝ) = (2 : ℝ) ^ 2 by norm_num, Real.sqrt_sq (by norm_num)]
  have hrmse : resultValue (Metric.compute .rmseMacro ⟨.tInt, [1, 2], [[.vInt 0, .vInt 0]]⟩
      ⟨.tInt, [1, 2], [[.vInt 0, .vInt 2]]⟩ ["a", "b"]) = 1 := by
    simp only [Metric.compute, resultValue, NDArray.ncols]
    norm_num [List.range_succ, h0, h1, numericDtype, hsqrt4]
  refine ⟨hmse, hrmse, ?_⟩
  rw [hmse, hrmse]
  intro heq
  have h2 : Real.sqrt 2 ^ 2 = 2 := Real.sq_sqrt (by norm_num)
  rw [← heq] at h2
  norm_num at h2

/-- Relation between a spec before and after one `add_*_evaluation` call
of kind `t`: matching specs keep their metric and gain exactly one
history entry, non-matching specs are untouched. -/
def SpecStepped (t : MetricTypeEnum) (s s' : MetricSpec) : Prop :=
  if s.metric.type = t then
    s'.metric = s.metric ∧ s'.reducers = s.reducers ∧
      s'.history.length = s.history.length + 1
  else s' = s

theorem metricSpec_compute_ok_shape (s s' : MetricSpec) (yT yP : NDArray)
    (cn : List String) (h : s.compute yT yP cn = .ok s') :
    s'.metric = s.metric ∧ s'.reducers = s.reducers ∧
      s'.history.length = s.history.length + 1 := by
  unfold MetricSpec.compute at h
  cases hc : s.metric.compute yT yP cn with
  | error e => rw [hc] at h; cases h
  | ok r =>
    rw [hc] at h
    cases h
    simp

theorem dispatchSpecs_partial (t : MetricTypeEnum) (yT yP : NDArray) (cn : List String)
    (e : PyErr) (sk : MetricSpec) (post : List MetricSpec)
    (hsk : sk.metric.type = t)
    (herr : sk.compute yT yP cn = .error e) :
    ∀ pre : List MetricSpec,
      (∀ s ∈ pre, s.metric.type = t → (s.compute yT yP cn).isOk = true) →
      ∃ pre', dispatchSpecs t yT yP cn (pre ++ sk :: post) = (pre' ++ sk :: post, some e) ∧
        List.Forall₂ (SpecStepped t) pre pre' := by
  intro pre
  induction pre with
  | nil =>
    intro _
    refine ⟨[], ?_, List.Forall₂.nil⟩
    simp only [List.nil_append, dispatchSpecs, if_pos hsk, herr]
  | cons s rest ih =>
    intro hok
    have hsok := hok s (List.mem_cons_self s rest)
    obtain ⟨pre', hdis, hrel⟩ := ih (fun x hx hxt => hok x (List.mem_cons_of_mem s hx) hxt)
    by_cases hst : s.metric.type = t
    · have hsok' := hsok hst
      cases hc : s.compute yT yP cn with
      | error e' => rw [hc] at hsok'; cases hsok'
      | ok s' =>
        refine ⟨s' :: pre', ?_, ?_⟩
        · simp only [List.cons_append, dispatchSpecs, if_pos hst, hc, List.append_eq, hdis]
        · exact List.Forall₂.cons
            (by
              unfold SpecStepped
              rw [if_pos hst]
              exact metricSpec_compute_ok_shape s s' yT yP cn hc) hrel
    · refine ⟨s :: pre', ?_, ?_⟩
      · simp only [List.cons_append, dispatchSpecs, if_neg hst, List.append_eq, hdis]
      · exact List.Forall₂.cons (by unfold SpecStepped; rw [if_neg hst]) hrel

/-- C9: evaluation-time compute errors are not atomic: if the inputs pass
common validation and the dtype checks but a matching spec's compute
raises, the error propagates while every matching spec dispatched before
it has already gained one history entry; the failing spec and everything
after it are unchanged. -/
theorem claim9_partial_update_on_compute_error (ev : MetricEvaluator)
    (yT yP : NDArray) (cn : List String) (pre post : List MetricSpec)
    (sk : MetricSpec) (e : PyErr)
    (hdecomp : ev.metricSpecs = pre ++ sk :: post)
    (hcommon : validateCommonInputs yT yP cn = none)
    (htype : labelTypeChecks yT yP = none)
    (hsk : sk.metric.type = .LABELS)
    (herr : sk.compute yT yP cn = .error e)
    (hpre : ∀ s ∈ pre, s.metric.type = .LABELS → (s.compute yT yP cn).isOk = true) :
    ∃ pre', ev.addLabelEvaluation yT yP cn = (⟨pre' ++ sk :: post⟩, some e) ∧
      List.Forall₂ (SpecStepped .LABELS) pre pre' := by
  obtain ⟨pre', hdis, hrel⟩ :=
    dispatchSpecs_partial .LABELS yT yP cn e sk post hsk herr pre hpre
  refine ⟨pre', ?_, hrel⟩
  unfold MetricEvaluator.addLabelEvaluation
  rw [hcommon, htype, hdecomp, hdis]

/-- Witness for C9: with a healthy micro-precision spec ahead of a
target-precision spec whose target is absent, the call raises, the first
history grows by one, and the failing spec and the regression spec after
it are untouched. -/
theorem claim9_witness :
    (validateCommonInputs ⟨.tInt, [1, 1], [[.vInt 1]]⟩ ⟨.tInt, [1, 1], [[.vInt 1]]⟩ ["a"]
        = none) ∧
    (MetricSpec.compute { metric := .precisionTarget "z" } ⟨.tInt, [1, 1], [[.vInt 1]]⟩
        ⟨.tInt, [1, 1], [[.vInt 1]]⟩ ["a"] = .error (.valueError "'z' is not in list")) ∧
    ∃ pre',
      MetricEvaluator.addLabelEvaluation
          ⟨[{ metric := .precisionMicro }, { metric := .precisionTarget "z" },
            { metric := .mseMacro }]⟩
          ⟨.tInt, [1, 1], [[.vInt 1]]⟩ ⟨.tInt, [1, 1], [[.vInt 1]]⟩ ["a"] =
        (⟨pre' ++ { metric := .precisionTarget "z" } :: [{ metric := .mseMacro }]⟩,
          some (.valueError "'z' is not in list")) ∧
      List.Forall₂ (SpecStepped .LABELS) [{ metric := .precisionMicro }] pre' :=
  ⟨rfl, rfl,
    claim9_partial_update_on_compute_error
      ⟨[{ metric := .precisionMicro }, { metric := .precisionTarget "z" },
        { metric := .mseMacro }]⟩
      ⟨.tInt, [1, 1], [[.vInt 1]]⟩ ⟨.tInt, [1, 1], [[.vInt 1]]⟩ ["a"]
      [{ metric := .precisionMicro }] [{ metric := .mseMacro }]
      { metric := .precisionTarget "z" } (.valueError "'z' is not in list")
      rfl rfl rfl rfl rfl
      (by
        intro s hs hst
        rcases List.mem_singleton.mp hs with rfl
        rfl)⟩

theorem findIdx?_of_mem (cn : List String) (t : String) (h : t ∈ cn) :
    ∃ i, cn.findIdx? (fun c => c == t) = some i ∧ i < cn.length := by
  induction cn with
  | nil => cases h
  | cons c rest ih =>
    by_cases hc : c = t
    · exact ⟨0, by simp [List.findIdx?_cons, hc], by simp⟩
    · have ht : t ∈ rest := by
        rcases List.mem_cons.mp h with rfl | hr
        · exact absurd rfl hc
        · exact hr
      obtain ⟨i, hi, hlt⟩ := ih ht
      refine ⟨i + 1, ?_, by simpa using Nat.succ_lt_succ hlt⟩
      simp [List.findIdx?_cons, hc, hi]

theorem getD_mem_of_lt (l : List PyVal) (i : Nat) (d : PyVal) (h : i < l.length) :
    l.getD i d ∈ l := by
  rw [List.getD_eq_getElem?_getD, List.getElem?_eq_getElem h]
  simp

theorem insertSortedUnique_ne_nil (v : PyVal) (l : List PyVal) :
    insertSortedUnique v l ≠ [] := by
  cases l with
  | nil => simp [insertSortedUnique]
  | cons w ws =>
    unfold insertSortedUnique
    split_ifs <;> simp

theorem classesOf_binary (l : List PyVal)
    (hb : ∀ v ∈ l, v = PyVal.vInt 0 ∨ v = PyVal.vInt 1) :
    classesOf l = [] ∨ classesOf l = [.vInt 0] ∨ classesOf l = [.vInt 1] ∨
      classesOf l = [.vInt 0, .vInt 1] := by
  induction l with
  | nil => left; rfl
  | cons v rest ih =>
    have hv := hb v (List.mem_cons_self v rest)
    have hmem := ih (fun x hx => hb x (List.mem_cons_of_mem v hx))
    have hcons : classesOf (v :: rest) = insertSortedUnique v (classesOf rest) := rfl
    rcases hv with rfl | rfl <;>
      rcases hmem with h | h | h | h <;> rw [hcons, h] <;> decide

theorem classesOf_ne_nil (l : List PyVal) (hne : l ≠ []) : classesOf l ≠ [] := by
  cases l with
  | nil => exact absurd rfl hne
  | cons v rest => exact insertSortedUnique_ne_nil v (classesOf rest)

theorem rocColAuc_ok_of_binary (ts : List PyVal) (ss : List ℚ) (hne : ts ≠ [])
    (hb : ∀ v ∈ ts, v = PyVal.vInt 0 ∨ v = PyVal.vInt 1) :
    rocColAuc ts ss = .ok (aucOf ts ss) := by
  have hacc : rocClassesAccepted (classesOf ts) = true := by
    rcases classesOf_binary ts hb with h | h | h | h
    · exact absurd h (classesOf_ne_nil ts hne)
    · rw [h]; decide
    · rw [h]; decide
    · rw [h]; decide
  unfold rocColAuc
  simp [hacc]

theorem entries_ne_nil (a : NDArray) (m k : Nat) (hwf : a.Wf2D m k)
    (hm : 1 ≤ m) (hk : 1 ≤ k) : a.entries ≠ [] := by
  obtain ⟨-, hlen, hrows⟩ := hwf
  cases hr : a.rows with
  | nil => rw [hr] at hlen; simp at hlen; omega
  | cons r rest =>
    have hrk : r.length = k := hrows r (by rw [hr]; exact List.mem_cons_self r rest)
    have hrne : r ≠ [] := by
      intro hnil
      rw [hnil] at hrk
      simp at hrk
      omega
    unfold NDArray.entries
    rw [hr, List.flatten_cons]
    intro hx
    exact hrne (List.append_eq_nil.mp hx).1

theorem colVals_length_eq (a : NDArray) (i : Nat) :
    (a.colVals i).length = a.rows.length := by
  simp [NDArray.colVals]

theorem colVals_subset_entries (a : NDArray) (m k : Nat) (hwf : a.Wf2D m k)
    (i : Nat) (hik : i < k) : ∀ v ∈ a.colVals i, v ∈ a.entries := by
  intro v hv
  simp only [NDArray.colVals, List.mem_map] at hv
  obtain ⟨r, hr, rfl⟩ := hv
  have hrk : r.length = k := hwf.2.2 r hr
  have hmem : r.getD i (.vInt 0) ∈ r := getD_mem_of_lt r i _ (by omega)
  exact List.mem_flatten.mpr ⟨r, hr, hmem⟩

theorem colVals_ne_nil (a : NDArray) (m k : Nat) (hwf : a.Wf2D m k) (hm : 1 ≤ m)
    (i : Nat) : a.colVals i ≠ [] := by
  intro hnil
  have := colVals_length_eq a i
  rw [hnil] at this
  simp [hwf.2.1] at this
  omega

theorem decodeLabels_ok (cn : List String) :
    ∀ rows : List (List PyVal), (∀ r ∈ rows, r ≠ []) →
      ∃ ls, decodeLabels cn rows = .ok ls := by
  intro rows
  induction rows with
  | nil => intro _; exact ⟨[], rfl⟩
  | cons r rest ih =>
    intro h
    have hr := h r (List.mem_cons_self r rest)
    obtain ⟨ls, hls⟩ := ih (fun x hx => h x (List.mem_cons_of_mem r hx))
    obtain ⟨v, vs, rfl⟩ : ∃ v vs, r = v :: vs := by
      cases r with
      | nil => exact absurd rfl hr
      | cons v vs => exact ⟨v, vs, rfl⟩
    exact ⟨cn.getD (argmaxGo 0 v 1 vs) "" :: ls, by simp [decodeLabels, argmaxIdx, hls]⟩

theorem macroAucsList_ok (yT yP : NDArray) (m k : Nat) (hwf : yT.Wf2D m k) (hm : 1 ≤ m)
    (hb : ∀ v ∈ yT.entries, v = PyVal.vInt 0 ∨ v = PyVal.vInt 1) :
    ∀ idxs : List Nat, (∀ i ∈ idxs, i < k) →
      ∃ aucs, macroAucsList yT yP idxs = .ok aucs ∧ aucs.length = idxs.length := by
  intro idxs
  induction idxs with
  | nil => intro _; exact ⟨[], rfl, rfl⟩
  | cons i is ih =>
    intro h
    have hik := h i (List.mem_cons_self i is)
    obtain ⟨aucs, haucs, hlen⟩ := ih (fun x hx => h x (List.mem_cons_of_mem i hx))
    have hcol : rocColAuc (yT.colVals i) ((yP.colVals i).map PyVal.toQ) =
        .ok (aucOf (yT.colVals i) ((yP.colVals i).map PyVal.toQ)) :=
      rocColAuc_ok_of_binary _ _ (colVals_ne_nil yT m k hwf hm i)
        (fun v hv => hb v (colVals_subset_entries yT m k hwf i hik v hv))
    refine ⟨aucOf (yT.colVals i) ((yP.colVals i).map PyVal.toQ) :: aucs, ?_, by simp [hlen]⟩
    simp [macroAucsList, hcol, haucs]

/-- Configuration side conditions under which a metric's compute cannot
fail on well-shaped input: target-scoped metrics need their target among
the column names, and `Accuracy` needs a valid confusion-matrix
normalization mode. -/
def Metric.configOk (mtr : Metric) (cn : List String) : Prop :=
  match mtr with
  | .accuracy nrm => normValid nrm = true
  | .precisionTarget t => t ∈ cn
  | .recallTarget t => t ∈ cn
  | .f1ScoreTarget t => t ∈ cn
  | .rocAucTarget t => t ∈ cn
  | .mseTarget t _ => t ∈ cn
  | .rmseTarget t _ => t ∈ cn
  | _ => True

theorem rows_ne_nil_of_wf (a : NDArray) (m k : Nat) (hwf : a.Wf2D m k) (hk : 1 ≤ k) :
    ∀ r ∈ a.rows, r ≠ [] := by
  intro r hr hnil
  have := hwf.2.2 r hr
  rw [hnil] at this
  simp at this
  omega

theorem metric_compute_ok_labels (mtr : Metric) (yT yP : NDArray) (cn : List String)
    (m k : Nat) (hT : yT.Wf2D m k) (hP : yP.Wf2D m k) (hk : 1 ≤ k) (hcn : cn.length = k)
    (htype : mtr.type = .LABELS) (hcfg : mtr.configOk cn) :
    ∃ r, mtr.compute yT yP cn = .ok r := by
  have hkne : cn.length ≠ 0 := by omega
  cases mtr with
  | accuracy nrm =>
    obtain ⟨tl, htl⟩ := decodeLabels_ok cn yT.rows (rows_ne_nil_of_wf yT m k hT hk)
    obtain ⟨pl, hpl⟩ := decodeLabels_ok cn yP.rows (rows_ne_nil_of_wf yP m k hP hk)
    have hnrm : normValid nrm = true := hcfg
    exact ⟨_, by simp [Metric.compute, htl, hpl, hnrm]; rfl⟩
  | precisionMicro => exact ⟨_, rfl⟩
  | recallMicro => exact ⟨_, rfl⟩
  | f1ScoreMicro => exact ⟨_, rfl⟩
  | precisionMacro => exact ⟨_, by simp [Metric.compute, hkne]; rfl⟩
  | recallMacro => exact ⟨_, by simp [Metric.compute, hkne]; rfl⟩
  | f1ScoreMacro => exact ⟨_, by simp [Metric.compute, hkne]; rfl⟩
  | precisionTarget t =>
    obtain ⟨i, hi, -⟩ := findIdx?_of_mem cn t hcfg
    exact ⟨_, by simp [Metric.compute, hi]; rfl⟩
  | recallTarget t =>
    obtain ⟨i, hi, -⟩ := findIdx?_of_mem cn t hcfg
    exact ⟨_, by simp [Metric.compute, hi]; rfl⟩
  | f1ScoreTarget t =>
    obtain ⟨i, hi, -⟩ := findIdx?_of_mem cn t hcfg
    exact ⟨_, by simp [Metric.compute, hi]; rfl⟩
  | rocAucMicro => simp [Metric.type] at htype
  | rocAucMacro => simp [Metric.type] at htype
  | rocAucTarget t => simp [Metric.type] at htype
  | mseTarget t L => simp [Metric.type] at htype
  | mseMacro => simp [Metric.type] at htype
  | rmseTarget t L => simp [Metric.type] at htype
  | rmseMacro => simp [Metric.type] at htype

theorem metric_compute_ok_probs (mtr : Metric) (yT yP : NDArray) (cn : List String)
    (m k : Nat) (hT : yT.Wf2D m k) (hm : 1 ≤ m) (hk : 1 ≤ k) (hcn : cn.length = k)
    (hb : ∀ v ∈ yT.entries, v = PyVal.vInt 0 ∨ v = PyVal.vInt 1)
    (htype : mtr.type = .PROBS) (hcfg : mtr.configOk cn) :
    ∃ r, mtr.compute yT yP cn = .ok r := by
  cases mtr with
  | rocAucMicro =>
    have hok := rocColAuc_ok_of_binary yT.entries (yP.entries.map PyVal.toQ)
      (entries_ne_nil yT m k hT hm hk) hb
    exact ⟨_, by simp [Metric.compute, hok]; rfl⟩
  | rocAucTarget t =>
    obtain ⟨i, hi, hilt⟩ := findIdx?_of_mem cn t hcfg
    have hok := rocColAuc_ok_of_binary (yT.colVals i) ((yP.colVals i).map PyVal.toQ)
      (colVals_ne_nil yT m k hT hm i)
      (fun v hv => hb v (colVals_subset_entries yT m k hT i (by omega) v hv))
    exact ⟨_, by simp [Metric.compute, hi, hok]; rfl⟩
  | rocAucMacro =>
    obtain ⟨aucs, haucs, hlen⟩ := macroAucsList_ok yT yP m k hT hm hb
      (List.range cn.length) (fun i hi => by simpa [hcn] using List.mem_range.mp hi)
    have hlne : aucs.length ≠ 0 := by
      rw [hlen, List.length_range]
      omega
    exact ⟨_, by simp [Metric.compute, haucs, hlne]; rfl⟩
  | accuracy nrm => simp [Metric.type] at htype
  | precisionMicro => simp [Metric.type] at htype
  | precisionMacro => simp [Metric.type] at htype
  | precisionTarget t => simp [Metric.type] at htype
  | recallMicro => simp [Metric.type] at htype
  | recallMacro => simp [Metric.type] at htype
  | recallTarget t => simp [Metric.type] at htype
  | f1ScoreMicro => simp [Metric.type] at htype
  | f1ScoreMacro => simp [Metric.type] at htype
  | f1ScoreTarget t => simp [Metric.type] at htype
  | mseTarget t L => simp [Metric.type] at htype
  | mseMacro => simp [Metric.type] at htype
  | rmseTarget t L => simp [Metric.type] at htype
  | rmseMacro => simp [Metric.type] at htype

theorem metric_compute_ok_scores (mtr : Metric) (yT yP : NDArray) (cn : List String)
    (hnT : numericDtype yT.dtype = true) (hnP : numericDtype yP.dtype = true)
    (htype : mtr.type = .SCORES) (hcfg : mtr.configOk cn) :
    ∃ r, mtr.compute yT yP cn = .ok r := by
  cases mtr with
  | mseTarget t L =>
    obtain ⟨i, hi, -⟩ := findIdx?_of_mem cn t hcfg
    exact ⟨_, by simp [Metric.compute, mseTargetCompute, hi, hnT, hnP]; rfl⟩
  | rmseTarget t L =>
    obtain ⟨i, hi, -⟩ := findIdx?_of_mem cn t hcfg
    exact ⟨_, by simp [Metric.compute, mseTargetCompute, hi, hnT, hnP]; rfl⟩
  | mseMacro => exact ⟨_, by simp [Metric.compute, hnT, hnP]; rfl⟩
  | rmseMacro => exact ⟨_, by simp [Metric.compute, hnT, hnP]; rfl⟩
  | accuracy nrm => simp [Metric.type] at htype
  | precisionMicro => simp [Metric.type] at htype
  | precisionMacro => simp [Metric.type] at htype
  | precisionTarget t => simp [Metric.type] at htype
  | recallMicro => simp [Metric.type] at htype
  | recallMacro => simp [Metric.type] at htype
  | recallTarget t => simp [Metric.type] at htype
  | f1ScoreMicro => simp [Metric.type] at htype
  | f1ScoreMacro => simp [Metric.type] at htype
  | f1ScoreTarget t => simp [Metric.type] at htype
  | rocAucMicro => simp [Metric.type] at htype
  | rocAucMacro => simp [Metric.type] at htype
  | rocAucTarget t => simp [Metric.type] at htype

theorem dispatchSpecs_all_ok (t : MetricTypeEnum) (yT yP : NDArray) (cn : List String) :
    ∀ specs : List MetricSpec,
      (∀ s ∈ specs, s.metric.type = t → ∃ r, s.metric.compute yT yP cn = .ok r) →
      (dispatchSpecs t yT yP cn specs).2 = none ∧
        List.Forall₂ (SpecStepped t) specs (dispatchSpecs t yT yP cn specs).1 := by
  intro specs
  induction specs with
  | nil => intro _; exact ⟨rfl, List.Forall₂.nil⟩
  | cons s rest ih =>
    intro hok
    obtain ⟨hrest2, hrestrel⟩ := ih (fun x hx => hok x (List.mem_cons_of_mem s hx))
    by_cases hst : s.metric.type = t
    · obtain ⟨r, hr⟩ := hok s (List.mem_cons_self s rest) hst
      have hcomp : s.compute yT yP cn = .ok { s with history := s.history ++ [r] } := by
        unfold MetricSpec.compute
        rw [hr]
      constructor
      · simp only [dispatchSpecs, if_pos hst, hcomp]
        exact hrest2
      · simp only [dispatchSpecs, if_pos hst, hcomp]
        exact List.Forall₂.cons (by unfold SpecStepped; rw [if_pos hst]; simp) hrestrel
    · constructor
      · simp only [dispatchSpecs, if_neg hst]
        exact hrest2
      · simp only [dispatchSpecs, if_neg hst]
        exact List.Forall₂.cons (by unfold SpecStepped; rw [if_neg hst]) hrestrel

theorem validateCommonInputs_none_of_wf (yT yP : NDArray) (cn : List String) (m k : Nat)
    (hT : yT.Wf2D m k) (hP : yP.Wf2D m k) (hcn : cn.length = k) :
    validateCommonInputs yT yP cn = none := by
  obtain ⟨hsT, -, -⟩ := hT
  obtain ⟨hsP, -, -⟩ := hP
  unfold validateCommonInputs NDArray.ndim NDArray.ncols
  rw [hsT, hsP]
  simp [hcn]

theorem labelTypeChecks_none_of (yT yP : NDArray)
    (h1 : isCategoricalDtype yT.dtype = true) (h2 : isCategoricalDtype yP.dtype = true) :
    labelTypeChecks yT yP = none := by
  simp [labelTypeChecks, h1, h2]

theorem probTypeChecks_none_of (yT yP : NDArray)
    (h1 : isCategoricalDtype yT.dtype = true) (h2 : yP.dtype = .tFloat)
    (h3 : ∀ v ∈ yP.entries, ∃ q : ℚ, v = .vFloat q ∧ 0 ≤ q ∧ q ≤ 1) :
    probTypeChecks yT yP = none := by
  have hall : yP.entries.all valIn01 = true := by
    rw [List.all_eq_true]
    intro v hv
    obtain ⟨q, rfl, hq0, hq1⟩ := h3 v hv
    simp [valIn01, hq0, hq1]
  simp [probTypeChecks, h1, h2, hall]

/-- C1 (amended): when additionally the arrays have at least one row and
one column, every Accuracy spec's normalization mode is valid and every
target-scoped spec's target is among the column names, and — for the
probability method — y_true cells are 0/1 integers with float predictions
in [0, 1], and — for the regression method — both dtypes are numeric,
then each `add_*_evaluation` succeeds and grows by exactly one entry the
history of every spec whose kind matches the method, leaving every other
spec untouched. -/
theorem claim1_amended_add_evaluations_increment (ev : MetricEvaluator)
    (yT yP : NDArray) (cn : List String) (m k : Nat)
    (hT : yT.Wf2D m k) (hP : yP.Wf2D m k) (hm : 1 ≤ m) (hk : 1 ≤ k)
    (hcn : cn.length = k)
    (hcfg : ∀ s ∈ ev.metricSpecs, s.metric.configOk cn) :
    (isCategoricalDtype yT.dtype = true → isCategoricalDtype yP.dtype = true →
      (ev.addLabelEvaluation yT yP cn).2 = none ∧
        List.Forall₂ (SpecStepped .LABELS) ev.metricSpecs
          (ev.addLabelEvaluation yT yP cn).1.metricSpecs) ∧
    (isCategoricalDtype yT.dtype = true → yP.dtype = .tFloat →
      (∀ v ∈ yT.entries, v = PyVal.vInt 0 ∨ v = PyVal.vInt 1) →
      (∀ v ∈ yP.entries, ∃ q : ℚ, v = .vFloat q ∧ 0 ≤ q ∧ q ≤ 1) →
      (ev.addProbEvaluation yT yP cn).2 = none ∧
        List.Forall₂ (SpecStepped .PROBS) ev.metricSpecs
          (ev.addProbEvaluation yT yP cn).1.metricSpecs) ∧
    (numericDtype yT.dtype = true → numericDtype yP.dtype = true →
      (ev.addRegressionEvaluation yT yP cn).2 = none ∧
        List.Forall₂ (SpecStepped .SCORES) ev.metricSpecs
          (ev.addRegressionEvaluation yT yP cn).1.metricSpecs) := by
  have hcommon := validateCommonInputs_none_of_wf yT yP cn m k hT hP hcn
  refine ⟨?_, ?_, ?_⟩
  · intro h1 h2
    have htc := labelTypeChecks_none_of yT yP h1 h2
    have hdis := dispatchSpecs_all_ok .LABELS yT yP cn ev.metricSpecs
      (fun s hs hst =>
        metric_compute_ok_labels s.metric yT yP cn m k hT hP hk hcn hst (hcfg s hs))
    simp only [MetricEvaluator.addLabelEvaluation, hcommon, htc]
    exact ⟨hdis.1, hdis.2⟩
  · intro h1 h2 h3 h4
    have htc := probTypeChecks_none_of yT yP h1 h2 h4
    have hdis := dispatchSpecs_all_ok .PROBS yT yP cn ev.metricSpecs
      (fun s hs hst =>
        metric_compute_ok_probs s.metric yT yP cn m k hT hm hk hcn h3 hst (hcfg s hs))
    simp only [MetricEvaluator.addProbEvaluation, hcommon, htc]
    exact ⟨hdis.1, hdis.2⟩
  · intro h1 h2
    have hdis := dispatchSpecs_all_ok .SCORES yT yP cn ev.metricSpecs
      (fun s hs hst =>
        metric_compute_ok_scores s.metric yT yP cn h1 h2 hst (hcfg s hs))
    simp only [MetricEvaluator.addRegressionEvaluation, hcommon]
    exact ⟨hdis.1, hdis.2⟩

/-- C1 counterexample: the 2-D integer arrays of shape (1, 0) with the
matching empty column_names satisfy every hypothesis of the claim (2-D,
identical shapes, categorical dtype, no target-scoped spec), yet
add_label_evaluation on an evaluator holding the macro-scoped precision
spec raises ZeroDivisionError (`value /= len(column_names)`) instead of
succeeding, and no history grows. -/
theorem claim1_counterexample :
    NDArray.Wf2D ⟨.tInt, [1, 0], [[]]⟩ 1 0 ∧
    isCategoricalDtype (NDArray.dtype ⟨.tInt, [1, 0], [[]]⟩) = true ∧
    ([] : List String).length = NDArray.ncols ⟨.tInt, [1, 0], [[]]⟩ ∧
    MetricEvaluator.addLabelEvaluation ⟨[{ metric := .precisionMacro }]⟩
        ⟨.tInt, [1, 0], [[]]⟩ ⟨.tInt, [1, 0], [[]]⟩ [] =
      (⟨[{ metric := .precisionMacro }]⟩, some .zeroDivisionError) := by
  refine ⟨⟨rfl, rfl, ?_⟩, rfl, rfl, rfl⟩
  intro r hr
  rcases List.mem_singleton.mp hr with rfl
  rfl

/-- Witness for the amended C1 at a one-spec-per-kind evaluator with
concrete label, probability and regression inputs. -/
theorem claim1_witness :
    ((MetricEvaluator.addLabelEvaluation
        ⟨[{ metric := .precisionMicro }, { metric := .rocAucMicro },
          { metric := .mseMacro }]⟩
        ⟨.tInt, [1, 1], [[.vInt 1]]⟩ ⟨.tInt, [1, 1], [[.vInt 0]]⟩ ["a"]).2 = none ∧
      List.Forall₂ (SpecStepped .LABELS)
        [{ metric := .precisionMicro }, { metric := .rocAucMicro },
          { metric := .mseMacro }]
        ((MetricEvaluator.addLabelEvaluation
          ⟨[{ metric := .precisionMicro }, { metric := .rocAucMicro },
            { metric := .mseMacro }]⟩
          ⟨.tInt, [1, 1], [[.vInt 1]]⟩ ⟨.tInt, [1, 1], [[.vInt 0]]⟩
          ["a"]).1.metricSpecs)) ∧
    ((MetricEvaluator.addProbEvaluation
        ⟨[{ metric := .precisionMicro }, { metric := .rocAucMicro },
          { metric := .mseMacro }]⟩
        ⟨.tInt, [1, 1], [[.vInt 1]]⟩ ⟨.tFloat, [1, 1], [[.vFloat (1 / 2)]]⟩
        ["a"]).2 = none) ∧
    ((MetricEvaluator.addRegressionEvaluation
        ⟨[{ metric := .precisionMicro }, { metric := .rocAucMicro },
          { metric := .mseMacro }]⟩
        ⟨.tInt, [1, 1], [[.vInt 1]]⟩ ⟨.tInt, [1, 1], [[.vInt 0]]⟩ ["a"]).2 = none) := by
  have hcfg : ∀ s ∈ ([{ metric := .precisionMicro }, { metric := .rocAucMicro },
      { metric := .mseMacro }] : List MetricSpec), s.metric.configOk ["a"] := by
    intro s hs
    rcases List.mem_cons.mp hs with rfl | hs
    · trivial
    rcases List.mem_cons.mp hs with rfl | hs
    · trivial
    rcases List.mem_cons.mp hs with rfl | hs
    · trivial
    · cases hs
  have hwfT : NDArray.Wf2D ⟨.tInt, [1, 1], [[.vInt 1]]⟩ 1 1 := by
    refine ⟨rfl, rfl, ?_⟩
    intro r hr
    rcases List.mem_singleton.mp hr with rfl
    rfl
  have hwfP0 : NDArray.Wf2D ⟨.tInt, [1, 1], [[.vInt 0]]⟩ 1 1 := by
    refine ⟨rfl, rfl, ?_⟩
    intro r hr
    rcases List.mem_singleton.mp hr with rfl
    rfl
  have hwfPf : NDArray.Wf2D ⟨.tFloat, [1, 1], [[.vFloat (1 / 2)]]⟩ 1 1 := by
    refine ⟨rfl, rfl, ?_⟩
    intro r hr
    rcases List.mem_singleton.mp hr with rfl
    rfl
  have hlab := (claim1_amended_add_evaluations_increment
    ⟨[{ metric := .precisionMicro }, { metric := .rocAucMicro }, { metric := .mseMacro }]⟩
    ⟨.tInt, [1, 1], [[.vInt 1]]⟩ ⟨.tInt, [1, 1], [[.vInt 0]]⟩ ["a"] 1 1
    hwfT hwfP0 (by omega) (by omega) rfl hcfg).1 rfl rfl
  have hprob := ((claim1_amended_add_evaluations_increment
    ⟨[{ metric := .precisionMicro }, { metric := .rocAucMicro }, { metric := .mseMacro }]⟩
    ⟨.tInt, [1, 1], [[.vInt 1]]⟩ ⟨.tFloat, [1, 1], [[.vFloat (1 / 2)]]⟩ ["a"] 1 1
    hwfT hwfPf (by omega) (by omega) rfl hcfg).2.1 rfl rfl
    (by
      intro v hv
      have hv' : v = PyVal.vInt 1 := by
        simpa [NDArray.entries] using hv
      exact Or.inr hv')
    (by
      intro v hv
      have hv' : v = PyVal.vFloat (1 / 2) := by
        simpa [NDArray.entries] using hv
      exact ⟨1 / 2, hv', by norm_num, by norm_num⟩)).1
  have hreg := ((claim1_amended_add_evaluations_increment
    ⟨[{ metric := .precisionMicro }, { metric := .rocAucMicro }, { metric := .mseMacro }]⟩
    ⟨.tInt, [1, 1], [[.vInt 1]]⟩ ⟨.tInt, [1, 1], [[.vInt 0]]⟩ ["a"] 1 1
    hwfT hwfP0 (by omega) (by omega) rfl hcfg).2.2 rfl rfl).1
  exact ⟨⟨hlab.1, hlab.2⟩, hprob, hreg⟩
